import Mathlib

/-!
Verification development for the 2D particle simulation
(`src/ball.rs`, `src/particle_sim.rs`, `src/lib.rs`).

The embedding models `f32` arithmetic by exact rationals (ℚ) and the
Bevy ECS store by a plain list of per-ball records.  The general
vector/geometry library helpers that the design document declares
external (`normalize_or_zero`, `length`, `clamp_length_max`) are taken
as parameters (the `VecLib` structure); everything else is translated
directly from the source.  Machine `u32` values (`Size`, `Mass`) are
modelled as ℕ: no configuration in scope approaches `2^32`.
-/

namespace BallSim

/-- 2D vector over ℚ (glam `Vec2` with exact arithmetic). -/
structure V2 where
  x : ℚ
  y : ℚ
deriving DecidableEq

/-- 3D vector over ℚ (glam `Vec3`). -/
structure V3 where
  x : ℚ
  y : ℚ
  z : ℚ
deriving DecidableEq

def V2.add (a b : V2) : V2 := ⟨a.x + b.x, a.y + b.y⟩

def V2.sub (a b : V2) : V2 := ⟨a.x - b.x, a.y - b.y⟩

def V2.smul (c : ℚ) (a : V2) : V2 := ⟨c * a.x, c * a.y⟩

def V2.dot (a b : V2) : ℚ := a.x * b.x + a.y * b.y

def V2.splat (c : ℚ) : V2 := ⟨c, c⟩

/-- glam `Vec2::extend`. -/
def V2.extend (a : V2) (z : ℚ) : V3 := ⟨a.x, a.y, z⟩

def V3.add (a b : V3) : V3 := ⟨a.x + b.x, a.y + b.y, a.z + b.z⟩

def V3.sub (a b : V3) : V3 := ⟨a.x - b.x, a.y - b.y, a.z - b.z⟩

def V3.smul (c : ℚ) (a : V3) : V3 := ⟨c * a.x, c * a.y, c * a.z⟩

def V3.lengthSquared (a : V3) : ℚ := a.x * a.x + a.y * a.y + a.z * a.z

/-- glam `Vec3::distance_squared`. -/
def V3.distanceSquared (a b : V3) : ℚ := (V3.sub a b).lengthSquared

/-- glam `Vec3::truncate` (drop z). -/
def V3.truncate (a : V3) : V2 := ⟨a.x, a.y⟩

/-- Componentwise scalar clamp, `min (max v lo) hi` (glam release
semantics: no assertion when `lo > hi`). -/
def qclamp (v lo hi : ℚ) : ℚ := min (max v lo) hi

/-- glam `Vec3::clamp`, componentwise. -/
def V3.clamp3 (v lo hi : V3) : V3 :=
  ⟨qclamp v.x lo.x hi.x, qclamp v.y lo.y hi.y, qclamp v.z lo.z hi.z⟩

/-- One ball: the `Transform` translation, `Velocity`, `Size` and `Mass`
components of one ECS entity, keyed by the entity id. -/
structure BallRec where
  eid : Nat
  pos : V3
  vel : V2
  size : Nat
  mass : Nat
deriving DecidableEq

/-- The per-frame viewport rectangle `(bounds.0, bounds.1)`. -/
structure Bounds where
  bmin : V2
  bmax : V2
deriving DecidableEq

/-- External vector-math library surface used by the engines
(declared out of scope by the design document, supplied as data). -/
structure VecLib where
  nzero2 : V2 → V2
  nzero3 : V3 → V3
  len2 : V2 → ℚ
  clampLen3 : V3 → ℚ → V3

/-- The contact test used by both engines:
`distance_squared(pos1, pos2) < ((size1 + size2).pow(2) as f32)`. -/
def ballsOverlap (b1 b2 : BallRec) : Bool :=
  decide (V3.distanceSquared b1.pos b2.pos < (((b1.size + b2.size) ^ 2 : ℕ) : ℚ))

/-- `particle_sim::Wall`. -/
inductive Wall where
  | North
  | East
  | West
  | South
deriving DecidableEq

/-- `particle_sim::CollisionType`. -/
inductive CollisionType where
  | Wall (w : Wall)
  | Entity (e : Nat)
deriving DecidableEq

/-- The entity a contact record points at:
`match kind { Entity(e) => e, _ => subject }` (inlined twice in the
source's dedup predicate). -/
def ctTarget (p : Nat × CollisionType) : Nat :=
  match p.2 with
  | CollisionType.Entity e => e
  | CollisionType.Wall _ => p.1

/-- The `dedup_by` predicate of `collider`
(`particle_sim.rs:126-138`): `a.0 == b.0 || (a.0 == target(b) &&
target(a) == b.0) || a.1 == b.1`. -/
def sameBucket (a b : Nat × CollisionType) : Bool :=
  decide (a.1 = b.1) || (decide (a.1 = ctTarget b) && decide (ctTarget a = b.1))
    || decide (a.2 = b.2)

/-- Tail of Rust `Vec::dedup_by`: each element is compared with the
most recently retained element and dropped when the predicate holds. -/
def dedupByGo (sb : Nat × CollisionType → Nat × CollisionType → Bool)
    (last : Nat × CollisionType) :
    List (Nat × CollisionType) → List (Nat × CollisionType)
  | [] => []
  | y :: ys => if sb y last then dedupByGo sb last ys else y :: dedupByGo sb y ys

/-- Rust `Vec::dedup_by`: removes all but the first of consecutive
elements related by `sb` (the later element is passed first). -/
def dedupBy (sb : Nat × CollisionType → Nat × CollisionType → Bool) :
    List (Nat × CollisionType) → List (Nat × CollisionType)
  | [] => []
  | x :: xs => x :: dedupByGo sb x xs

/-- The four wall checks of the detection pass, in source priority order
East, West, South, North; first match wins (the `return`s at
`particle_sim.rs:89-119`). -/
def wallContact (bounds : Bounds) (b : BallRec) : Option (Nat × CollisionType) :=
  if decide (bounds.bmax.x - (b.size : ℚ) < b.pos.x) then
    some (b.eid, CollisionType.Wall Wall.East)
  else if decide (b.pos.x < bounds.bmin.x + (b.size : ℚ)) then
    some (b.eid, CollisionType.Wall Wall.West)
  else if decide (b.pos.y < bounds.bmin.y + (b.size : ℚ)) then
    some (b.eid, CollisionType.Wall Wall.South)
  else if decide (bounds.bmax.y - (b.size : ℚ) < b.pos.y) then
    some (b.eid, CollisionType.Wall Wall.North)
  else none

/-- One inner iteration of the detection scan: a ball-ball contact when
overlapping and distinct, otherwise the wall checks for `b1`. -/
def detectPair (bounds : Bounds) (b1 b2 : BallRec) : List (Nat × CollisionType) :=
  if ballsOverlap b1 b2 && decide (b1.eid ≠ b2.eid) then
    [(b1.eid, CollisionType.Entity b2.eid)]
  else (wallContact bounds b1).toList

/-- The full detection pass of `collider` (`particle_sim.rs:70-122`),
sequentialised in list order (the parallel loops are serialised through
one mutex-protected list). -/
def detectContacts (bounds : Bounds) (balls : List BallRec) :
    List (Nat × CollisionType) :=
  balls.foldl
    (fun acc b1 => balls.foldl (fun acc2 b2 => acc2 ++ detectPair bounds b1 b2) acc)
    []

/-- ECS `get_component` by entity id (first match). -/
def findBall (store : List BallRec) (e : Nat) : Option BallRec :=
  store.find? fun b => decide (b.eid = e)

/-- ECS `get_component_mut` by entity id: rewrite every record carrying
the id. -/
def updateBall (store : List BallRec) (e : Nat) (f : BallRec → BallRec) :
    List BallRec :=
  store.map fun b => if b.eid = e then f b else b

/-- Velocity of the entity `e` in `store`, when present. -/
def velOf (store : List BallRec) (e : Nat) : Option V2 :=
  (findBall store e).map BallRec.vel

/-- Wall resolution (`particle_sim.rs:146-168`): force the sign of the
perpendicular velocity component away from the wall. -/
def wallReflect (w : Wall) (v : V2) : V2 :=
  match w with
  | Wall.North => ⟨v.x, -(abs v.y)⟩
  | Wall.East => ⟨-(abs v.x), v.y⟩
  | Wall.West => ⟨abs v.x, v.y⟩
  | Wall.South => ⟨v.x, abs v.y⟩

/-- Ball-ball resolution (`particle_sim.rs:169-238`): elastic collision
velocities computed from a snapshot of both balls, written back in the
source order (vel1, vel2, then the two positional corrections). -/
def resolveEntityContact (lib : VecLib) (store : List BallRec) (e1 e2 : Nat) :
    List BallRec :=
  match findBall store e1, findBall store e2 with
  | some b1, some b2 =>
    let size1 : ℚ := b1.size
    let size2 : ℚ := b2.size
    let mass1 : ℚ := b1.mass
    let mass2 : ℚ := b2.mass
    let position1 := b1.pos
    let position2 := b2.pos
    let velocity1 := b1.vel
    let velocity2 := b2.vel
    let dist_squared := max (V3.distanceSquared position1 position2) 1
    let mass_scalar_1 := 2 * mass2 / (mass1 + mass2)
    let mass_scalar_2 := 2 * mass1 / (mass2 + mass1)
    let collision_normal_1 := V3.truncate (V3.sub position1 position2)
    let collision_normal_2 := V3.truncate (V3.sub position2 position1)
    let velocity_projection_1 := V2.dot (V2.sub velocity1 velocity2) collision_normal_1
    let velocity_projection_2 := V2.dot (V2.sub velocity2 velocity1) collision_normal_2
    let normalized_velocity_1 :=
      V2.smul (mass_scalar_1 * velocity_projection_1 / dist_squared) collision_normal_1
    let normalized_velocity_2 :=
      V2.smul (mass_scalar_2 * velocity_projection_2 / dist_squared) collision_normal_2
    let new_velocity_1 := V2.sub velocity1 normalized_velocity_1
    let new_velocity_2 := V2.sub velocity2 normalized_velocity_2
    let corr1 :=
      V2.extend
        (V2.smul (size1 - lib.len2 collision_normal_1 * (size1 / (size1 + size2)))
          (lib.nzero2 collision_normal_1)) 1
    let corr2 :=
      V2.extend
        (V2.smul (size2 - lib.len2 collision_normal_2 * (size2 / (size1 + size2)))
          (lib.nzero2 collision_normal_2)) 1
    let s1 := updateBall store e1 fun b => ⟨b.eid, b.pos, new_velocity_1, b.size, b.mass⟩
    let s2 := updateBall s1 e2 fun b => ⟨b.eid, b.pos, new_velocity_2, b.size, b.mass⟩
    let s3 := updateBall s2 e1 fun b => ⟨b.eid, V3.add b.pos corr1, b.vel, b.size, b.mass⟩
    updateBall s3 e2 fun b => ⟨b.eid, V3.add b.pos corr2, b.vel, b.size, b.mass⟩
  | _, _ => store

/-- Resolution of one deduplicated contact record. -/
def applyContact (lib : VecLib) (store : List BallRec) (c : Nat × CollisionType) :
    List BallRec :=
  match c.2 with
  | CollisionType.Wall w =>
    updateBall store c.1 fun b => ⟨b.eid, b.pos, wallReflect w b.vel, b.size, b.mass⟩
  | CollisionType.Entity e2 => resolveEntityContact lib store c.1 e2

/-- Per-tick integration (`particle_sim.rs:244-253`): advance by the
velocity, then clamp into the bounds shrunk by `size - 0.1`. -/
def integrateBall (bounds : Bounds) (b : BallRec) : BallRec :=
  ⟨b.eid,
    V3.clamp3 (V3.add b.pos (V2.extend b.vel 1))
      (V2.extend (V2.add bounds.bmin (V2.splat ((b.size : ℚ) - 1/10))) 1)
      (V2.extend (V2.sub bounds.bmax (V2.splat ((b.size : ℚ) - 1/10))) 1),
    b.vel, b.size, b.mass⟩

/-- One `collider` tick (`particle_sim.rs:52-266`): detection, dedup,
resolution of every surviving contact, then integration. -/
def collider (lib : VecLib) (bounds : Bounds) (store : List BallRec) :
    List BallRec :=
  let contacts := dedupBy sameBucket (detectContacts bounds store)
  let resolved := contacts.foldl (fun s c => applyContact lib s c) store
  resolved.map (integrateBall bounds)

/-- State of `pack_balls`' Phase A (`ball.rs:124-174`): the ball store,
the mutex-protected `touching` accumulator (modelled as an association
list in insertion order), the timer's elapsed time, the `spaced` flag
and a cursor into the random stream. -/
structure PackState where
  balls : List BallRec
  touching : List (Nat × V3)
  elapsed : ℚ
  spaced : Bool
  ridx : Nat
deriving DecidableEq

/-- The repulsion impulse of one Phase A contact
(`ball.rs:158-163`): `normalize_or_zero(p2 - p1) * (1/|p1|² *
max(dist²(p2,p1), 0.01))`.  (In `f32` the factor `1/|p1|²` is `inf`
for a ball exactly at the origin; in ℚ it is `0`.  Phase A never
applies these accumulated impulses — see the Phase A theorems — so no
claim depends on the difference.) -/
def packImpulse (lib : VecLib) (b1 b2 : BallRec) : V3 :=
  V3.smul
    (1 / V3.lengthSquared b1.pos * max (V3.distanceSquared b2.pos b1.pos) (1/100))
    (lib.nzero3 (V3.sub b2.pos b1.pos))

/-- `HashMap::entry(k).or_insert(ZERO) += v` on the association list. -/
def mapAddAt (m : List (Nat × V3)) (k : Nat) (v : V3) : List (Nat × V3) :=
  if (m.find? fun p => decide (p.1 = k)).isSome then
    m.map fun p => if p.1 = k then (p.1, V3.add p.2 v) else p
  else m ++ [(k, v)]

/-- `HashMap::entry(k).and_modify(f)` on the association list. -/
def mapModifyAt (m : List (Nat × V3)) (k : Nat) (f : V3 → V3) : List (Nat × V3) :=
  m.map fun p => if p.1 = k then (p.1, f p.2) else p

/-- Accumulator of the Phase A pair scan: the fresh `touching` map, the
`spaced` flag and the random-stream cursor. -/
structure ScanAcc where
  touching : List (Nat × V3)
  spaced : Bool
  ridx : Nat
deriving DecidableEq

/-- One inner iteration of the Phase A pair scan (`ball.rs:144-173`).
On contact the source stores `spaced = true` (`ball.rs:152`), adds the
repulsion impulse into `touching[entity1]`, then replaces that entry by
`jitter + clamp_length_max(entry, 10000)`. -/
def phaseAScanStep (lib : VecLib) (rand2 : Nat → ℚ × ℚ) (b1 b2 : BallRec)
    (a : ScanAcc) : ScanAcc :=
  if ballsOverlap b1 b2 && decide (b1.eid ≠ b2.eid) then
    let t1 := mapAddAt a.touching b1.eid (packImpulse lib b1 b2)
    let r := rand2 a.ridx
    let t2 := mapModifyAt t1 b1.eid fun v => V3.add ⟨r.1, r.2, 1⟩ (lib.clampLen3 v 10000)
    ⟨t2, true, a.ridx + 1⟩
  else a

/-- Application of one drained pending impulse (`ball.rs:129-140`):
add it to the ball's translation and clamp into
`[bounds.0 + size, bounds.1 - size]` (both corners `extend`ed by 1, so
the z clamp window is `[2, 0]` — the source's own quirk). -/
def applyPendingImpulse (bounds : Bounds) (balls : List BallRec) (e : Nat × V3) :
    List BallRec :=
  updateBall balls e.1 fun b =>
    ⟨b.eid,
      V3.clamp3 (V3.add b.pos e.2)
        (V3.add (V2.extend bounds.bmin 1) (V2.extend (V2.splat (b.size : ℚ)) 1))
        (V3.sub (V2.extend bounds.bmax 1) (V2.extend (V2.splat (b.size : ℚ)) 1)),
      b.vel, b.size, b.mass⟩

/-- One body of the Phase A loop: drain and apply the pending impulses,
store `spaced = true`, tick the timer, then run the pair scan. -/
def phaseABody (lib : VecLib) (rand2 : Nat → ℚ × ℚ) (bounds : Bounds) (dt : ℚ)
    (st : PackState) : PackState :=
  let balls1 := st.touching.foldl (fun bs e => applyPendingImpulse bounds bs e) st.balls
  let sc := balls1.foldl
    (fun a b1 => balls1.foldl (fun a2 b2 => phaseAScanStep lib rand2 b1 b2 a2) a)
    ⟨[], true, st.ridx⟩
  ⟨balls1, sc.touching, st.elapsed + dt, sc.spaced, sc.ridx⟩

/-- The Phase A loop `while !spaced && !timer.finished()` (`ball.rs:128`),
fuelled; the timer is a `0.1`-second one-shot ticked by the constant
frame delta `dt`. -/
def phaseALoop (lib : VecLib) (rand2 : Nat → ℚ × ℚ) (bounds : Bounds) (dt : ℚ) :
    Nat → PackState → PackState
  | 0, st => st
  | fuel + 1, st =>
    if st.spaced = false ∧ st.elapsed < 1/10 then
      phaseALoop lib rand2 bounds dt fuel (phaseABody lib rand2 bounds dt st)
    else st

/-- Whether some unordered pair of distinct balls is in contact. -/
def hasContactPair (balls : List BallRec) : Bool :=
  balls.any fun b1 => balls.any fun b2 => ballsOverlap b1 b2 && decide (b1.eid ≠ b2.eid)

/-- One inner iteration of the Phase B deletion scan (`ball.rs:181-201`):
on a contact between distinct balls neither of which is already cleared,
despawn `entity2`, record it in `cleared_entites` and store
`spaced = false`.  The accumulator is `(cleared, spaced)`. -/
def phaseBStep (b1 b2 : BallRec) (acc : List Nat × Bool) : List Nat × Bool :=
  if ballsOverlap b1 b2 && decide (b1.eid ≠ b2.eid)
      && !(acc.1.contains b1.eid) && !(acc.1.contains b2.eid) then
    (acc.1 ++ [b2.eid], false)
  else acc

/-- One full Phase B pass over all ordered pairs, in list order (the
parallel iteration is serialised through the `cleared_entites` mutex). -/
def phaseBPass (balls : List BallRec) (acc : List Nat × Bool) : List Nat × Bool :=
  balls.foldl
    (fun a b1 => balls.foldl (fun a2 b2 => phaseBStep b1 b2 a2) a) acc

/-- The Phase B loop `while !spaced` (`ball.rs:179`), fuelled: each pass
starts from `spaced = true` and repeats while a pass cleared something. -/
def phaseBLoop (balls : List BallRec) : Nat → List Nat → List Nat
  | 0, cleared => cleared
  | fuel + 1, cleared =>
    if (phaseBPass balls (cleared, true)).2 then (phaseBPass balls (cleared, true)).1
    else phaseBLoop balls fuel (phaseBPass balls (cleared, true)).1

/-- The Phase B exit condition: a full pass from `cleared` finds no new
contact among non-cleared balls. -/
def phaseBDone (balls : List BallRec) (cleared : List Nat) : Prop :=
  (phaseBPass balls (cleared, true)).2 = true

/-- The whole of `pack_balls` (`ball.rs:108-204`): Phase A, then Phase B,
then the (deferred) despawns take effect.  Phase B's unbounded `while`
is given `length + 1` units of fuel; the Phase B theorems prove this
fuel always reaches the loop's own exit condition. -/
def packBalls (lib : VecLib) (rand2 : Nat → ℚ × ℚ) (bounds : Bounds) (dt : ℚ)
    (fuelA : Nat) (balls : List BallRec) : List BallRec :=
  let stA := phaseALoop lib rand2 bounds dt fuelA ⟨balls, [], 0, false, 0⟩
  let cleared := phaseBLoop stA.balls (stA.balls.length + 1) []
  stA.balls.filter fun b => !(cleared.contains b.eid)

/-- The camera/viewport state both engines query for bounds: Bevy's
`logical_viewport_rect` and `viewport_to_world_2d` both return options. -/
structure CameraModel where
  viewportRect : Option (V2 × V2)
  toWorld : V2 → Option V2

/-- `Query::get_single`: succeeds exactly when one camera exists. -/
def getSingle (cams : List CameraModel) : Option CameraModel :=
  match cams with
  | [c] => some c
  | _ => none

/-- The bounds fetch of `pack_balls` (`ball.rs:115-122`; `space_balls`
is identical): every failure is `unwrap`ped, i.e. a panic, modelled as
`none`. -/
def packBoundsFetch (cams : List CameraModel) : Option (V2 × V2) := do
  let c ← getSingle cams
  let r ← c.viewportRect
  let bmin ← c.toWorld r.1
  let bmax ← c.toWorld r.2
  pure (bmin, bmax)

/-- The bounds fetch of `collider` (`particle_sim.rs:57-68`): the camera
fetch and the viewport rect are `unwrap`ped, but each
`viewport_to_world_2d` failure is replaced by `Vec2::default()` via
`unwrap_or_default`. -/
def colliderBoundsFetch (cams : List CameraModel) : Option (V2 × V2) := do
  let c ← getSingle cams
  let r ← c.viewportRect
  pure ((c.toWorld r.1).getD ⟨0, 0⟩, (c.toWorld r.2).getD ⟨0, 0⟩)

/-- A contact record that resolves the unordered ball pair `{a, b}`:
either `(a, Entity b)` or `(b, Entity a)`. -/
def refsPair (a b : Nat) (c : Nat × CollisionType) : Bool :=
  match c.2 with
  | CollisionType.Entity e =>
    (decide (c.1 = a) && decide (e = b)) || (decide (c.1 = b) && decide (e = a))
  | CollisionType.Wall _ => false

/-- Number of ball-ball resolutions a contact list applies to the
unordered pair `{a, b}`. -/
def pairCount (a b : Nat) (l : List (Nat × CollisionType)) : Nat :=
  (l.filter (refsPair a b)).length

/-- The id, radius and mass of `b` are those of some record of `src`. -/
def coreFrom (src : List BallRec) (b : BallRec) : Prop :=
  ∃ b0, b0 ∈ src ∧ b0.eid = b.eid ∧ b0.size = b.size ∧ b0.mass = b.mass

/-- Every record of `out` keeps the id/radius/mass of a record of `src`. -/
def coreRel (src out : List BallRec) : Prop :=
  ∀ b ∈ out, coreFrom src b

/-- A concrete instantiation of the external vector library, used only
to evaluate the model on concrete inputs (no claim below depends on its
fields). -/
def libDummy : VecLib := ⟨fun v => v, fun v => v, fun _ => 0, fun v _ => v⟩

/-- A concrete random stream for evaluating the model. -/
def randDummy : Nat → ℚ × ℚ := fun _ => (0, 0)

/-- The bounds used by the concrete scenarios below. -/
def bounds0 : Bounds := ⟨⟨0, 0⟩, ⟨100, 100⟩⟩

/-- A Phase A entry state with two overlapping balls
(radius 10 at `(0,0)` and `(5,0)`), fresh timer, `spaced = false`. -/
def packSt0 : PackState :=
  ⟨[⟨0, ⟨0, 0, 0⟩, ⟨0, 0⟩, 10, 5⟩, ⟨1, ⟨5, 0, 0⟩, ⟨0, 0⟩, 10, 5⟩], [], 0, false, 0⟩

/-- A camera whose viewport rect is present but whose viewport-to-world
conversion fails. -/
def camBadToWorld : CameraModel := ⟨some (⟨0, 0⟩, ⟨1, 1⟩), fun _ => none⟩

/-! ## Generic helpers -/

/-- Invariant preservation along `List.foldl`. -/
theorem foldl_inv {α : Type} {β : Type} (P : α → Prop) (f : α → β → α)
    (l : List β) (a : α) (hf : ∀ x b, b ∈ l → P x → P (f x b)) (h : P a) :
    P (l.foldl f a) := by
  induction l generalizing a with
  | nil => exact h
  | cons b t ih =>
    exact ih (f a b) (fun x c hc hx => hf x c (List.mem_cons_of_mem _ hc) hx)
      (hf a b (List.mem_cons_self _ _) h)

theorem qclamp_le_hi (v lo hi : ℚ) : qclamp v lo hi ≤ hi :=
  min_le_right _ _

theorem lo_le_qclamp (v lo hi : ℚ) (h : lo ≤ hi) : lo ≤ qclamp v lo hi :=
  le_min (le_max_right _ _) h

theorem findBall_map (g : BallRec → BallRec) (hg : ∀ b, (g b).eid = b.eid)
    (s : List BallRec) (e : Nat) :
    findBall (s.map g) e = (findBall s e).map g := by
  induction s with
  | nil => rfl
  | cons b t ih =>
    by_cases hb : b.eid = e
    · simp [findBall, List.find?_cons, hg, hb]
    · simpa [findBall, List.find?_cons, hg, hb] using ih

theorem findBall_updateBall (s : List BallRec) (e e' : Nat) (f : BallRec → BallRec)
    (hf : ∀ b, (f b).eid = b.eid) :
    findBall (updateBall s e f) e' =
      (findBall s e').map fun b => if b.eid = e then f b else b := by
  apply findBall_map
  intro b
  by_cases h : b.eid = e <;> simp [h, hf]

theorem findBall_eid (s : List BallRec) (e : Nat) (b : BallRec)
    (h : findBall s e = some b) : b.eid = e := by
  have := List.find?_some h
  simpa using this

/-! ## C9: fatality of a missing viewport -/

/-- C9 (counterexample): with a camera present whose viewport-to-world
conversion fails, `collider`'s bounds fetch does not stop: it continues
with the `Vec2::default()` bounds `((0,0),(0,0))` (from the
`unwrap_or_default` at `particle_sim.rs:61-66`), while `pack_balls`'
fetch for the very same camera state panics. -/
theorem c9_counterexample :
    colliderBoundsFetch [camBadToWorld] = some (⟨0, 0⟩, ⟨0, 0⟩) ∧
    packBoundsFetch [camBadToWorld] = none :=
  ⟨rfl, rfl⟩

/-- C9 (amended): a missing camera (not exactly one) or a missing
logical viewport rect panics in both `pack_balls` and `collider`; a
failed viewport-to-world conversion panics in `pack_balls` (and
`space_balls`) but in `collider` is replaced by the default `Vec2::ZERO`
corner and the tick continues; when everything is present both fetches
agree. -/
theorem c9_amended_bounds_fetch (cams : List CameraModel) (c : CameraModel)
    (r : V2 × V2) :
    (getSingle cams = none →
      packBoundsFetch cams = none ∧ colliderBoundsFetch cams = none) ∧
    (cams = [c] → c.viewportRect = none →
      packBoundsFetch cams = none ∧ colliderBoundsFetch cams = none) ∧
    (cams = [c] → c.viewportRect = some r → c.toWorld r.1 = none →
      c.toWorld r.2 = none →
      packBoundsFetch cams = none ∧
      colliderBoundsFetch cams = some (⟨0, 0⟩, ⟨0, 0⟩)) ∧
    (cams = [c] → c.viewportRect = some r → ∀ w1 w2,
      c.toWorld r.1 = some w1 → c.toWorld r.2 = some w2 →
      packBoundsFetch cams = some (w1, w2) ∧
      colliderBoundsFetch cams = some (w1, w2)) := by
  refine ⟨fun h => ?_, fun hc hr => ?_, fun hc hr h1 h2 => ?_, fun hc hr w1 w2 h1 h2 => ?_⟩
  · simp [packBoundsFetch, colliderBoundsFetch, h]
  · subst hc
    simp [packBoundsFetch, colliderBoundsFetch, getSingle, hr]
  · subst hc
    simp [packBoundsFetch, colliderBoundsFetch, getSingle, hr, h1, h2]
  · subst hc
    simp [packBoundsFetch, colliderBoundsFetch, getSingle, hr, h1, h2]

/-- C9 (witness for the amended theorem): the concrete camera with a
failing conversion exercises the third and first branches. -/
theorem c9_amended_witness :
    packBoundsFetch [camBadToWorld] = none ∧
    colliderBoundsFetch [camBadToWorld] = some (⟨0, 0⟩, ⟨0, 0⟩) :=
  (c9_amended_bounds_fetch [camBadToWorld] camBadToWorld (⟨0, 0⟩, ⟨1, 1⟩)).2.2.1
    rfl rfl rfl rfl

/-! ## C4: the clamp invariant -/

/-- C4 (counterexample): the integration clamp of `collider`
(`particle_sim.rs:244-253`) shrinks the bounds by `size - 0.1`, not by
`size`: a ball of radius 10 at `(50,50)` with velocity `(100,0)` inside
`[0,100]²` ends the tick at `x = 90.1 > bounds.max.x - radius = 90`,
violating the claimed invariant. -/
theorem c4_counterexample :
    ¬ ((integrateBall bounds0 ⟨0, ⟨50, 50, 1⟩, ⟨100, 0⟩, 10, 1⟩).pos.x ≤
        100 - 10) := by
  norm_num [integrateBall, bounds0, V3.clamp3, qclamp, V3.add, V2.extend,
    V2.add, V2.sub, V2.splat]

/-- C4 (amended): the packing-engine clamp (`ball.rs:136-139`) does keep
the mutated ball's x/y inside the exact window `[min+r, max-r]`
(whenever that window is nonempty), but the collision engine's per-tick
integration clamp only keeps every ball inside the widened window
`[min + (r-0.1), max - (r-0.1)]`; the de-penetration position update of
the resolution step applies no clamp at all. -/
theorem c4_amended_clamp (bounds : Bounds) :
    (∀ (balls : List BallRec) (entry : Nat × V3) (b : BallRec),
      b ∈ applyPendingImpulse bounds balls entry → b.eid = entry.1 →
      bounds.bmin.x + (b.size : ℚ) ≤ bounds.bmax.x - (b.size : ℚ) →
      bounds.bmin.y + (b.size : ℚ) ≤ bounds.bmax.y - (b.size : ℚ) →
      bounds.bmin.x + (b.size : ℚ) ≤ b.pos.x ∧
      b.pos.x ≤ bounds.bmax.x - (b.size : ℚ) ∧
      bounds.bmin.y + (b.size : ℚ) ≤ b.pos.y ∧
      b.pos.y ≤ bounds.bmax.y - (b.size : ℚ)) ∧
    (∀ b0 : BallRec,
      bounds.bmin.x + ((b0.size : ℚ) - 1/10) ≤ bounds.bmax.x - ((b0.size : ℚ) - 1/10) →
      bounds.bmin.y + ((b0.size : ℚ) - 1/10) ≤ bounds.bmax.y - ((b0.size : ℚ) - 1/10) →
      bounds.bmin.x + ((b0.size : ℚ) - 1/10) ≤ (integrateBall bounds b0).pos.x ∧
      (integrateBall bounds b0).pos.x ≤ bounds.bmax.x - ((b0.size : ℚ) - 1/10) ∧
      bounds.bmin.y + ((b0.size : ℚ) - 1/10) ≤ (integrateBall bounds b0).pos.y ∧
      (integrateBall bounds b0).pos.y ≤ bounds.bmax.y - ((b0.size : ℚ) - 1/10)) := by
  constructor
  · intro balls entry b hb heid hx hy
    simp only [applyPendingImpulse, updateBall] at hb
    rcases List.mem_map.mp hb with ⟨b0, hb0, hbe⟩
    by_cases h0 : b0.eid = entry.1
    · simp only [h0, if_pos] at hbe
      subst hbe
      simp only [V3.clamp3, V3.add, V3.sub, V2.extend, V2.splat] at hx hy ⊢
      exact ⟨lo_le_qclamp _ _ _ hx, qclamp_le_hi _ _ _,
        lo_le_qclamp _ _ _ hy, qclamp_le_hi _ _ _⟩
    · simp only [h0, if_neg, not_false_iff] at hbe
      subst hbe
      exact absurd heid h0
  · intro b0 hx hy
    simp only [integrateBall, V3.clamp3, V3.add, V2.extend, V2.add, V2.sub,
      V2.splat] at hx hy ⊢
    exact ⟨lo_le_qclamp _ _ _ hx, qclamp_le_hi _ _ _,
      lo_le_qclamp _ _ _ hy, qclamp_le_hi _ _ _⟩

/-- C4 (witness for the amended theorem): the counterexample scenario
satisfies the widened window. -/
theorem c4_amended_witness :
    (0 : ℚ) + ((10 : ℕ) - 1/10) ≤
      (integrateBall bounds0 ⟨0, ⟨50, 50, 1⟩, ⟨100, 0⟩, 10, 1⟩).pos.x ∧
    (integrateBall bounds0 ⟨0, ⟨50, 50, 1⟩, ⟨100, 0⟩, 10, 1⟩).pos.x ≤
      100 - ((10 : ℕ) - 1/10) := by
  have h := (c4_amended_clamp bounds0).2 ⟨0, ⟨50, 50, 1⟩, ⟨100, 0⟩, 10, 1⟩
    (by norm_num [bounds0]) (by norm_num [bounds0])
  exact ⟨h.1, h.2.1⟩

/-! ## C7: wall resolution frame effect -/

/-- C7: resolving a wall contact rewrites only the subject's velocity
component perpendicular to the wall, forcing its sign away from the wall
(North wall, at `bounds.max.y`, forces `y = -|y|`; South forces
`y = |y|`; East, at `bounds.max.x`, forces `x = -|x|`; West forces
`x = |x|`) while keeping its magnitude; the tangential component, the
position, radius and mass of every ball are untouched
(`particle_sim.rs:146-168`). -/
theorem c7_wall_resolution (lib : VecLib) (store : List BallRec) (e : Nat)
    (w : Wall) :
    ((applyContact lib store (e, CollisionType.Wall w)).length = store.length ∧
      ∀ (i : Nat) (h : i < store.length)
        (h2 : i < (applyContact lib store (e, CollisionType.Wall w)).length),
        ((applyContact lib store (e, CollisionType.Wall w)).get ⟨i, h2⟩).eid =
          (store.get ⟨i, h⟩).eid ∧
        ((applyContact lib store (e, CollisionType.Wall w)).get ⟨i, h2⟩).pos =
          (store.get ⟨i, h⟩).pos ∧
        ((applyContact lib store (e, CollisionType.Wall w)).get ⟨i, h2⟩).size =
          (store.get ⟨i, h⟩).size ∧
        ((applyContact lib store (e, CollisionType.Wall w)).get ⟨i, h2⟩).mass =
          (store.get ⟨i, h⟩).mass ∧
        ((applyContact lib store (e, CollisionType.Wall w)).get ⟨i, h2⟩).vel =
          (if (store.get ⟨i, h⟩).eid = e then wallReflect w (store.get ⟨i, h⟩).vel
            else (store.get ⟨i, h⟩).vel)) ∧
    (∀ v : V2,
      ((wallReflect Wall.North v).x = v.x ∧ (wallReflect Wall.North v).y ≤ 0 ∧
        abs (wallReflect Wall.North v).y = abs v.y) ∧
      ((wallReflect Wall.South v).x = v.x ∧ 0 ≤ (wallReflect Wall.South v).y ∧
        abs (wallReflect Wall.South v).y = abs v.y) ∧
      ((wallReflect Wall.East v).y = v.y ∧ (wallReflect Wall.East v).x ≤ 0 ∧
        abs (wallReflect Wall.East v).x = abs v.x) ∧
      ((wallReflect Wall.West v).y = v.y ∧ 0 ≤ (wallReflect Wall.West v).x ∧
        abs (wallReflect Wall.West v).x = abs v.x)) := by
  refine ⟨⟨?_, ?_⟩, ?_⟩
  · simp [applyContact, updateBall]
  · intro i h h2
    simp only [applyContact, updateBall, List.get_eq_getElem, List.getElem_map]
    by_cases he : (store.get ⟨i, h⟩).eid = e <;>
      simp only [List.get_eq_getElem] at he <;> simp [he]
  · intro v
    refine ⟨⟨rfl, ?_, ?_⟩, ⟨rfl, ?_, ?_⟩, ⟨rfl, ?_, ?_⟩, ⟨rfl, ?_, ?_⟩⟩ <;>
      simp [wallReflect, abs_nonneg, neg_nonpos, abs_abs]

/-- C7 (witness): a single North-wall contact on a one-ball store. -/
theorem c7_wall_resolution_witness :
    ((applyContact ⟨fun v => v, fun v => v, fun _ => 0, fun v _ => v⟩
        [⟨0, ⟨5, 5, 1⟩, ⟨3, 4⟩, 2, 7⟩] (0, CollisionType.Wall Wall.North)).get
      ⟨0, by norm_num [applyContact, updateBall]⟩).vel =
      (if ((⟨0, ⟨5, 5, 1⟩, ⟨3, 4⟩, 2, 7⟩ : BallRec)).eid = 0 then
        wallReflect Wall.North (⟨3, 4⟩ : V2) else (⟨3, 4⟩ : V2)) := by
  have h := ((c7_wall_resolution ⟨fun v => v, fun v => v, fun _ => 0, fun v _ => v⟩
    [⟨0, ⟨5, 5, 1⟩, ⟨3, 4⟩, 2, 7⟩] 0 Wall.North).1.2 0 (by norm_num)
    (by norm_num [applyContact, updateBall]))
  exact h.2.2.2.2

/-! ## C2 and C8: the ball-ball impulse -/

theorem velOf_update4 (store : List BallRec) (e1 e2 : Nat) (b1 : BallRec)
    (h1 : findBall store e1 = some b1) (hb1 : b1.eid = e1) (hne : e1 ≠ e2)
    (v1 v2 : V2) (c1 c2 : V3) :
    velOf (updateBall (updateBall (updateBall (updateBall store e1
      fun b => ⟨b.eid, b.pos, v1, b.size, b.mass⟩) e2
      fun b => ⟨b.eid, b.pos, v2, b.size, b.mass⟩) e1
      fun b => ⟨b.eid, V3.add b.pos c1, b.vel, b.size, b.mass⟩) e2
      fun b => ⟨b.eid, V3.add b.pos c2, b.vel, b.size, b.mass⟩) e1 = some v1 := by
  simp only [velOf]
  rw [findBall_updateBall _ e2 e1
      (fun b => ⟨b.eid, V3.add b.pos c2, b.vel, b.size, b.mass⟩) fun b => rfl,
    findBall_updateBall _ e1 e1
      (fun b => ⟨b.eid, V3.add b.pos c1, b.vel, b.size, b.mass⟩) fun b => rfl,
    findBall_updateBall _ e2 e1
      (fun b => ⟨b.eid, b.pos, v2, b.size, b.mass⟩) fun b => rfl,
    findBall_updateBall _ e1 e1
      (fun b => ⟨b.eid, b.pos, v1, b.size, b.mass⟩) fun b => rfl, h1]
  simp [hb1, hne]

theorem velOf_update4_snd (store : List BallRec) (e1 e2 : Nat) (b2 : BallRec)
    (h2 : findBall store e2 = some b2) (hb2 : b2.eid = e2) (hne : e1 ≠ e2)
    (v1 v2 : V2) (c1 c2 : V3) :
    velOf (updateBall (updateBall (updateBall (updateBall store e1
      fun b => ⟨b.eid, b.pos, v1, b.size, b.mass⟩) e2
      fun b => ⟨b.eid, b.pos, v2, b.size, b.mass⟩) e1
      fun b => ⟨b.eid, V3.add b.pos c1, b.vel, b.size, b.mass⟩) e2
      fun b => ⟨b.eid, V3.add b.pos c2, b.vel, b.size, b.mass⟩) e2 = some v2 := by
  simp only [velOf]
  rw [findBall_updateBall _ e2 e2
      (fun b => ⟨b.eid, V3.add b.pos c2, b.vel, b.size, b.mass⟩) fun b => rfl,
    findBall_updateBall _ e1 e2
      (fun b => ⟨b.eid, V3.add b.pos c1, b.vel, b.size, b.mass⟩) fun b => rfl,
    findBall_updateBall _ e2 e2
      (fun b => ⟨b.eid, b.pos, v2, b.size, b.mass⟩) fun b => rfl,
    findBall_updateBall _ e1 e2
      (fun b => ⟨b.eid, b.pos, v1, b.size, b.mass⟩) fun b => rfl, h2]
  simp [hb2, Ne.symm hne]

/-- The two velocities written by the ball-ball resolution, read off the
pre-update snapshot. -/
theorem velOf_resolveEntityContact (lib : VecLib) (store : List BallRec)
    (e1 e2 : Nat) (b1 b2 : BallRec) (h1 : findBall store e1 = some b1)
    (h2 : findBall store e2 = some b2) (hne : e1 ≠ e2) :
    velOf (resolveEntityContact lib store e1 e2) e1 =
      some (V2.sub b1.vel (V2.smul
        (2 * (b2.mass : ℚ) / ((b1.mass : ℚ) + (b2.mass : ℚ)) *
            V2.dot (V2.sub b1.vel b2.vel) (V3.truncate (V3.sub b1.pos b2.pos)) /
          max (V3.distanceSquared b1.pos b2.pos) 1)
        (V3.truncate (V3.sub b1.pos b2.pos)))) ∧
    velOf (resolveEntityContact lib store e1 e2) e2 =
      some (V2.sub b2.vel (V2.smul
        (2 * (b1.mass : ℚ) / ((b2.mass : ℚ) + (b1.mass : ℚ)) *
            V2.dot (V2.sub b2.vel b1.vel) (V3.truncate (V3.sub b2.pos b1.pos)) /
          max (V3.distanceSquared b1.pos b2.pos) 1)
        (V3.truncate (V3.sub b2.pos b1.pos)))) := by
  have hb1 : b1.eid = e1 := findBall_eid _ _ _ h1
  have hb2 : b2.eid = e2 := findBall_eid _ _ _ h2
  simp only [resolveEntityContact, h1, h2]
  exact ⟨velOf_update4 store e1 e2 b1 h1 hb1 hne _ _ _ _,
    velOf_update4_snd store e1 e2 b2 h2 hb2 hne _ _ _ _⟩

/-- C2: for a ball-ball contact `(e1, Entity e2)` resolved by `collider`,
the written velocities are
`newVel_a = vel_a - massScalar_a * proj_a / distSq * normal_a` and
symmetrically for b, with `massScalar_a = 2*mass_b/(mass_a+mass_b)`,
`normal_a = truncate (pos_a - pos_b)`,
`proj_a = dot (vel_a - vel_b) normal_a` and
`distSq = max (distanceSquared pos_a pos_b) 1`, both computed from the
pre-update snapshot of the two balls before either velocity is written
(`particle_sim.rs:169-238`). -/
theorem c2_ball_ball_impulse (lib : VecLib) (store : List BallRec)
    (e1 e2 : Nat) (b1 b2 : BallRec) (h1 : findBall store e1 = some b1)
    (h2 : findBall store e2 = some b2) (hne : e1 ≠ e2) :
    velOf (applyContact lib store (e1, CollisionType.Entity e2)) e1 =
      some (V2.sub b1.vel (V2.smul
        (2 * (b2.mass : ℚ) / ((b1.mass : ℚ) + (b2.mass : ℚ)) *
            V2.dot (V2.sub b1.vel b2.vel) (V3.truncate (V3.sub b1.pos b2.pos)) /
          max (V3.distanceSquared b1.pos b2.pos) 1)
        (V3.truncate (V3.sub b1.pos b2.pos)))) ∧
    velOf (applyContact lib store (e1, CollisionType.Entity e2)) e2 =
      some (V2.sub b2.vel (V2.smul
        (2 * (b1.mass : ℚ) / ((b2.mass : ℚ) + (b1.mass : ℚ)) *
            V2.dot (V2.sub b2.vel b1.vel) (V3.truncate (V3.sub b2.pos b1.pos)) /
          max (V3.distanceSquared b1.pos b2.pos) 1)
        (V3.truncate (V3.sub b2.pos b1.pos)))) :=
  velOf_resolveEntityContact lib store e1 e2 b1 b2 h1 h2 hne

/-- C2 (witness): two unit-mass balls at `(0,0,1)` and `(3,0,1)`,
velocities `(1,0)` and `(0,0)`: the full impulse is transferred. -/
theorem c2_ball_ball_impulse_witness :
    velOf (applyContact libDummy
        [⟨0, ⟨0, 0, 1⟩, ⟨1, 0⟩, 1, 1⟩, ⟨1, ⟨3, 0, 1⟩, ⟨0, 0⟩, 1, 1⟩]
        (0, CollisionType.Entity 1)) 0 = some ⟨0, 0⟩ ∧
    velOf (applyContact libDummy
        [⟨0, ⟨0, 0, 1⟩, ⟨1, 0⟩, 1, 1⟩, ⟨1, ⟨3, 0, 1⟩, ⟨0, 0⟩, 1, 1⟩]
        (0, CollisionType.Entity 1)) 1 = some ⟨1, 0⟩ := by
  have h := c2_ball_ball_impulse libDummy
    [⟨0, ⟨0, 0, 1⟩, ⟨1, 0⟩, 1, 1⟩, ⟨1, ⟨3, 0, 1⟩, ⟨0, 0⟩, 1, 1⟩] 0 1
    ⟨0, ⟨0, 0, 1⟩, ⟨1, 0⟩, 1, 1⟩ ⟨1, ⟨3, 0, 1⟩, ⟨0, 0⟩, 1, 1⟩ rfl rfl
    (by norm_num)
  rw [h.1, h.2]
  constructor <;>
    · congr 1
      simp only [V2.sub, V2.smul, V2.dot, V3.truncate, V3.sub,
        V3.distanceSquared, V3.lengthSquared]
      norm_num

/-- C8 (counterexample): two balls of equal mass 1, radius 1, approach
head-on along the x axis from centres `(0,0,1)` and `(1/2,0,1)` (an
overlapping contact, since `dist² = 1/4 < (1+1)²`) with opposite
velocities `(1,0)` and `(-1,0)` directed along the line of centres.
Because `dist² = 1/4 < 1`, the `max(·,1)` floor is active and the
resolution yields `newVel_a = (1/2, 0)`, not the claimed swap
`(-1, 0)`. -/
theorem c8_counterexample :
    velOf (applyContact libDummy
        [⟨0, ⟨0, 0, 1⟩, ⟨1, 0⟩, 1, 1⟩, ⟨1, ⟨1/2, 0, 1⟩, ⟨-1, 0⟩, 1, 1⟩]
        (0, CollisionType.Entity 1)) 0 = some ⟨1/2, 0⟩ ∧
    ((⟨1/2, 0⟩ : V2) ≠ (⟨-1, 0⟩ : V2)) := by
  constructor
  · have h := velOf_resolveEntityContact libDummy
      [⟨0, ⟨0, 0, 1⟩, ⟨1, 0⟩, 1, 1⟩, ⟨1, ⟨1/2, 0, 1⟩, ⟨-1, 0⟩, 1, 1⟩] 0 1
      ⟨0, ⟨0, 0, 1⟩, ⟨1, 0⟩, 1, 1⟩ ⟨1, ⟨1/2, 0, 1⟩, ⟨-1, 0⟩, 1, 1⟩ rfl rfl
      (by norm_num)
    rw [show applyContact libDummy
        [⟨0, ⟨0, 0, 1⟩, ⟨1, 0⟩, 1, 1⟩, ⟨1, ⟨1/2, 0, 1⟩, ⟨-1, 0⟩, 1, 1⟩]
        (0, CollisionType.Entity 1) = resolveEntityContact libDummy
        [⟨0, ⟨0, 0, 1⟩, ⟨1, 0⟩, 1, 1⟩, ⟨1, ⟨1/2, 0, 1⟩, ⟨-1, 0⟩, 1, 1⟩] 0 1
      from rfl, h.1]
    congr 1
    simp only [V2.sub, V2.smul, V2.dot, V3.truncate, V3.sub,
      V3.distanceSquared, V3.lengthSquared]
    norm_num [max_eq_right]
  · intro h
    have := congrArg V2.x h
    norm_num at this

/-- C8 (amended): the claimed velocity swap for an equal-mass head-on
contact holds exactly when the `max(distanceSquared, 1)` floor is
inactive, i.e. when `distanceSquared(pos_a, pos_b) ≥ 1` (and the two
centres share the draw-order z): then the resolution swaps the two
velocities exactly and total momentum is conserved.  For
`distanceSquared < 1` the floor rescales the impulse and the swap
fails (see the counterexample). -/
theorem c8_amended_head_on_swap (lib : VecLib) (e1 e2 : Nat) (hne : e1 ≠ e2)
    (m s1 s2 : Nat) (hm : 0 < m) (p1 p2 : V3) (hz : p1.z = p2.z) (c : ℚ)
    (hdist : 1 ≤ V3.distanceSquared p1 p2) :
    velOf (applyContact lib
        [⟨e1, p1, V2.smul c (V3.truncate (V3.sub p1 p2)), s1, m⟩,
          ⟨e2, p2, V2.smul (-c) (V3.truncate (V3.sub p1 p2)), s2, m⟩]
        (e1, CollisionType.Entity e2)) e1 =
      some (V2.smul (-c) (V3.truncate (V3.sub p1 p2))) ∧
    velOf (applyContact lib
        [⟨e1, p1, V2.smul c (V3.truncate (V3.sub p1 p2)), s1, m⟩,
          ⟨e2, p2, V2.smul (-c) (V3.truncate (V3.sub p1 p2)), s2, m⟩]
        (e1, CollisionType.Entity e2)) e2 =
      some (V2.smul c (V3.truncate (V3.sub p1 p2))) ∧
    V2.add (V2.smul (-c) (V3.truncate (V3.sub p1 p2)))
        (V2.smul c (V3.truncate (V3.sub p1 p2))) =
      V2.add (V2.smul c (V3.truncate (V3.sub p1 p2)))
        (V2.smul (-c) (V3.truncate (V3.sub p1 p2))) := by
  have hfind1 : findBall
      [⟨e1, p1, V2.smul c (V3.truncate (V3.sub p1 p2)), s1, m⟩,
        ⟨e2, p2, V2.smul (-c) (V3.truncate (V3.sub p1 p2)), s2, m⟩] e1 =
      some ⟨e1, p1, V2.smul c (V3.truncate (V3.sub p1 p2)), s1, m⟩ := by
    simp [findBall, List.find?]
  have hfind2 : findBall
      [⟨e1, p1, V2.smul c (V3.truncate (V3.sub p1 p2)), s1, m⟩,
        ⟨e2, p2, V2.smul (-c) (V3.truncate (V3.sub p1 p2)), s2, m⟩] e2 =
      some ⟨e2, p2, V2.smul (-c) (V3.truncate (V3.sub p1 p2)), s2, m⟩ := by
    simp [findBall, List.find?, hne, Ne.symm hne]
  have h := velOf_resolveEntityContact lib
    [⟨e1, p1, V2.smul c (V3.truncate (V3.sub p1 p2)), s1, m⟩,
      ⟨e2, p2, V2.smul (-c) (V3.truncate (V3.sub p1 p2)), s2, m⟩] e1 e2
    ⟨e1, p1, V2.smul c (V3.truncate (V3.sub p1 p2)), s1, m⟩
    ⟨e2, p2, V2.smul (-c) (V3.truncate (V3.sub p1 p2)), s2, m⟩ hfind1 hfind2 hne
  have hz0 : p1.z - p2.z = 0 := by rw [hz]; ring
  have hD : V3.distanceSquared p1 p2 =
      (p1.x - p2.x) * (p1.x - p2.x) + (p1.y - p2.y) * (p1.y - p2.y) := by
    simp [V3.distanceSquared, V3.lengthSquared, V3.sub, hz0]
  have hmax : max (V3.distanceSquared p1 p2) 1 = V3.distanceSquared p1 p2 :=
    max_eq_left hdist
  have hS1 : (1 : ℚ) ≤ (p1.x - p2.x) * (p1.x - p2.x) + (p1.y - p2.y) * (p1.y - p2.y) := by
    rw [← hD]; exact hdist
  have hSne : (p1.x - p2.x) * (p1.x - p2.x) + (p1.y - p2.y) * (p1.y - p2.y) ≠ 0 :=
    ne_of_gt (lt_of_lt_of_le one_pos hS1)
  have hmne : (m : ℚ) ≠ 0 := Nat.cast_ne_zero.mpr hm.ne'
  have hmm : (m : ℚ) + (m : ℚ) ≠ 0 := by
    intro hcon
    apply hmne
    have : (2 : ℚ) * m = 0 := by linarith
    linarith
  refine ⟨?_, ?_, by simp only [V2.add, V2.smul, V2.mk.injEq]; constructor <;> ring⟩
  · rw [show applyContact lib
        [⟨e1, p1, V2.smul c (V3.truncate (V3.sub p1 p2)), s1, m⟩,
          ⟨e2, p2, V2.smul (-c) (V3.truncate (V3.sub p1 p2)), s2, m⟩]
        (e1, CollisionType.Entity e2) = resolveEntityContact lib
        [⟨e1, p1, V2.smul c (V3.truncate (V3.sub p1 p2)), s1, m⟩,
          ⟨e2, p2, V2.smul (-c) (V3.truncate (V3.sub p1 p2)), s2, m⟩] e1 e2
      from rfl, h.1]
    congr 1
    rw [hmax, hD]
    simp only [V2.sub, V2.smul, V2.dot, V3.truncate, V3.sub, V2.mk.injEq]
    constructor <;> (field_simp; ring)
  · rw [show applyContact lib
        [⟨e1, p1, V2.smul c (V3.truncate (V3.sub p1 p2)), s1, m⟩,
          ⟨e2, p2, V2.smul (-c) (V3.truncate (V3.sub p1 p2)), s2, m⟩]
        (e1, CollisionType.Entity e2) = resolveEntityContact lib
        [⟨e1, p1, V2.smul c (V3.truncate (V3.sub p1 p2)), s1, m⟩,
          ⟨e2, p2, V2.smul (-c) (V3.truncate (V3.sub p1 p2)), s2, m⟩] e1 e2
      from rfl, h.2]
    congr 1
    rw [hmax, hD]
    simp only [V2.sub, V2.smul, V2.dot, V3.truncate, V3.sub, V2.mk.injEq]
    constructor <;> (field_simp; ring)

/-- C8 (witness for the amended theorem): masses 1, centres `(0,0,1)`
and `(2,0,1)` (`dist² = 4 ≥ 1`), velocity factor `c = 1`. -/
theorem c8_amended_witness :
    velOf (applyContact libDummy
        [⟨0, ⟨0, 0, 1⟩, V2.smul 1 (V3.truncate (V3.sub ⟨0, 0, 1⟩ ⟨2, 0, 1⟩)), 1, 1⟩,
          ⟨1, ⟨2, 0, 1⟩, V2.smul (-1) (V3.truncate (V3.sub ⟨0, 0, 1⟩ ⟨2, 0, 1⟩)), 1, 1⟩]
        (0, CollisionType.Entity 1)) 0 =
      some (V2.smul (-1) (V3.truncate (V3.sub ⟨0, 0, 1⟩ ⟨2, 0, 1⟩))) :=
  (c8_amended_head_on_swap libDummy 0 1 (by norm_num) 1 1 1 (by norm_num)
    ⟨0, 0, 1⟩ ⟨2, 0, 1⟩ rfl 1 (by norm_num [V3.distanceSquared,
      V3.lengthSquared, V3.sub])).1

/-! ## C5: the Phase A loop -/

theorem phaseAScanStep_spaced (lib : VecLib) (rand2 : Nat → ℚ × ℚ)
    (b1 b2 : BallRec) (a : ScanAcc) (h : a.spaced = true) :
    (phaseAScanStep lib rand2 b1 b2 a).spaced = true := by
  unfold phaseAScanStep
  split
  · rfl
  · exact h

/-- After any Phase A body the `spaced` flag is `true`: the body stores
`true` before the scan (`ball.rs:141`) and the scan's contact branch
stores `true` again (`ball.rs:152`) instead of `false`. -/
theorem phaseABody_spaced (lib : VecLib) (rand2 : Nat → ℚ × ℚ) (bounds : Bounds)
    (dt : ℚ) (st : PackState) :
    (phaseABody lib rand2 bounds dt st).spaced = true := by
  have h : ∀ (balls1 : List BallRec) (a0 : ScanAcc), a0.spaced = true →
      (balls1.foldl
        (fun a b1 => balls1.foldl (fun a2 b2 => phaseAScanStep lib rand2 b1 b2 a2) a)
        a0).spaced = true := by
    intro balls1 a0 h0
    exact foldl_inv (fun a => a.spaced = true) _ _ _
      (fun x b1 _ hx => foldl_inv (fun a => a.spaced = true) _ _ x
        (fun y b2 _ hy => phaseAScanStep_spaced lib rand2 b1 b2 y hy) hx) h0
  exact h _ _ rfl

theorem phaseALoop_exit (lib : VecLib) (rand2 : Nat → ℚ × ℚ) (bounds : Bounds)
    (dt : ℚ) (fuel : Nat) (st : PackState) (h : st.spaced = true) :
    phaseALoop lib rand2 bounds dt fuel st = st := by
  cases fuel with
  | zero => rfl
  | succ n => simp [phaseALoop, h]

/-- The Phase A loop always runs exactly one body when entered: the body
leaves `spaced = true` whether or not the pass found contacts. -/
theorem phaseALoop_one_pass (lib : VecLib) (rand2 : Nat → ℚ × ℚ)
    (bounds : Bounds) (dt : ℚ) (fuel : Nat) (st : PackState)
    (h0 : st.spaced = false) (h1 : st.elapsed < 1/10) :
    phaseALoop lib rand2 bounds dt (fuel + 1) st =
      phaseABody lib rand2 bounds dt st := by
  have hb := phaseABody_spaced lib rand2 bounds dt st
  rw [phaseALoop, if_pos ⟨h0, h1⟩]
  exact phaseALoop_exit lib rand2 bounds dt fuel _ hb

theorem phaseABody_balls_of_touching_nil (lib : VecLib) (rand2 : Nat → ℚ × ℚ)
    (bounds : Bounds) (dt : ℚ) (st : PackState) (h : st.touching = []) :
    (phaseABody lib rand2 bounds dt st).balls = st.balls := by
  simp [phaseABody, h]

/-- Phase A never moves any ball from its initial state: the first body
drains an empty `touching` map, and the loop exits before a second body
could apply the impulses accumulated by the first scan. -/
theorem phaseALoop_init_balls (lib : VecLib) (rand2 : Nat → ℚ × ℚ)
    (bounds : Bounds) (dt : ℚ) (fuel : Nat) (balls : List BallRec) :
    (phaseALoop lib rand2 bounds dt fuel
      (⟨balls, [], 0, false, 0⟩ : PackState)).balls = balls := by
  cases fuel with
  | zero => rfl
  | succ n =>
    rw [phaseALoop_one_pass lib rand2 bounds dt n _ rfl (by norm_num)]
    exact phaseABody_balls_of_touching_nil lib rand2 bounds dt _ rfl

/-- C5 (code bug): on a state with two overlapping balls, unexhausted
time budget (`elapsed = 0 < 0.1`) and frame delta `1/100`, Phase A's
loop exits after exactly one pass: the contact branch at `ball.rs:152`
stores `spaced = true` — compare the analogous Phase B branch at
`ball.rs:198`, which stores `false` — so the pass's contacts never cause
another iteration, positions never change, and the loop does not run
`until 0.1 s elapse or a pass finds zero contacts` as claimed. -/
theorem c5_phase_a_exits_after_one_pass :
    phaseALoop libDummy randDummy bounds0 (1/100) (9 + 1) packSt0 =
      phaseABody libDummy randDummy bounds0 (1/100) packSt0 ∧
    (phaseABody libDummy randDummy bounds0 (1/100) packSt0).balls =
      packSt0.balls ∧
    hasContactPair (phaseABody libDummy randDummy bounds0 (1/100) packSt0).balls =
      true ∧
    (phaseABody libDummy randDummy bounds0 (1/100) packSt0).elapsed < 1/10 := by
  refine ⟨phaseALoop_one_pass libDummy randDummy bounds0 (1/100) 9 packSt0 rfl
      (by norm_num [packSt0]),
    phaseABody_balls_of_touching_nil libDummy randDummy bounds0 (1/100) packSt0 rfl,
    ?_, ?_⟩
  · rw [phaseABody_balls_of_touching_nil libDummy randDummy bounds0 (1/100) packSt0 rfl]
    norm_num [packSt0, hasContactPair, ballsOverlap, V3.distanceSquared,
      V3.lengthSquared, V3.sub, List.any_cons]
  · simp only [phaseABody, packSt0]
    norm_num

/-! ## C10: radius and mass are never mutated -/

theorem coreRel_refl (s : List BallRec) : coreRel s s :=
  fun b hb => ⟨b, hb, rfl, rfl, rfl⟩

theorem coreRel_trans (s t u : List BallRec) (h1 : coreRel s t)
    (h2 : coreRel t u) : coreRel s u := by
  intro b hb
  rcases h2 b hb with ⟨b0, hb0, he, hs, hm⟩
  rcases h1 b0 hb0 with ⟨b1, hb1, he1, hs1, hm1⟩
  exact ⟨b1, hb1, he1.trans he, hs1.trans hs, hm1.trans hm⟩

theorem coreRel_map (s : List BallRec) (g : BallRec → BallRec)
    (hg : ∀ b, (g b).eid = b.eid ∧ (g b).size = b.size ∧ (g b).mass = b.mass) :
    coreRel s (s.map g) := by
  intro b hb
  rcases List.mem_map.mp hb with ⟨b0, hb0, rfl⟩
  exact ⟨b0, hb0, ((hg b0).1).symm, ((hg b0).2.1).symm, ((hg b0).2.2).symm⟩

theorem coreRel_updateBall (s : List BallRec) (e : Nat) (f : BallRec → BallRec)
    (hf : ∀ b, (f b).eid = b.eid ∧ (f b).size = b.size ∧ (f b).mass = b.mass) :
    coreRel s (updateBall s e f) := by
  apply coreRel_map
  intro b
  by_cases h : b.eid = e <;> simp [h, hf b]

/-- Any `updateBall` that rewrites only position and velocity preserves
every ball's core attributes. -/
theorem coreRel_updateBall_posvel (s : List BallRec) (e : Nat)
    (fp : BallRec → V3) (fv : BallRec → V2) :
    coreRel s (updateBall s e fun b => ⟨b.eid, fp b, fv b, b.size, b.mass⟩) :=
  coreRel_updateBall s e _ fun b => ⟨rfl, rfl, rfl⟩

theorem coreRel_resolveEntityContact (lib : VecLib) (s : List BallRec)
    (e1 e2 : Nat) : coreRel s (resolveEntityContact lib s e1 e2) := by
  unfold resolveEntityContact
  cases h1 : findBall s e1 with
  | none => exact coreRel_refl s
  | some b1 =>
    cases h2 : findBall s e2 with
    | none => exact coreRel_refl s
    | some b2 =>
      refine coreRel_trans _ _ _ (coreRel_trans _ _ _ (coreRel_trans _ _ _
        (coreRel_updateBall_posvel _ _ _ _) (coreRel_updateBall_posvel _ _ _ _))
        (coreRel_updateBall_posvel _ _ _ _)) (coreRel_updateBall_posvel _ _ _ _)

theorem coreRel_applyContact (lib : VecLib) (s : List BallRec)
    (c : Nat × CollisionType) : coreRel s (applyContact lib s c) := by
  rcases c with ⟨e, k⟩
  cases k with
  | Wall w => exact coreRel_updateBall_posvel _ _ _ _
  | Entity e2 => exact coreRel_resolveEntityContact lib s e e2

theorem coreRel_foldl_applyContact (lib : VecLib)
    (cs : List (Nat × CollisionType)) (s : List BallRec) :
    coreRel s (cs.foldl (fun st c => applyContact lib st c) s) := by
  induction cs generalizing s with
  | nil => exact coreRel_refl s
  | cons c t ih =>
    exact coreRel_trans _ _ _ (coreRel_applyContact lib s c) (ih _)

theorem coreRel_collider (lib : VecLib) (bounds : Bounds)
    (store : List BallRec) : coreRel store (collider lib bounds store) := by
  unfold collider
  exact coreRel_trans _ _ _
    (coreRel_foldl_applyContact lib _ store)
    (coreRel_map _ (integrateBall bounds) fun b => ⟨rfl, rfl, rfl⟩)

theorem coreRel_packBalls (lib : VecLib) (rand2 : Nat → ℚ × ℚ) (bounds : Bounds)
    (dt : ℚ) (fuelA : Nat) (balls : List BallRec) :
    coreRel balls (packBalls lib rand2 bounds dt fuelA balls) := by
  intro b hb
  unfold packBalls at hb
  have hmem : b ∈ (phaseALoop lib rand2 bounds dt fuelA
      (⟨balls, [], 0, false, 0⟩ : PackState)).balls :=
    List.mem_of_mem_filter hb
  rw [phaseALoop_init_balls] at hmem
  exact ⟨b, hmem, rfl, rfl, rfl⟩

/-- C10: every ball surviving a `collider` tick or a `pack_balls` run
keeps the radius (`Size`) and mass (`Mass`) it was created with: both
operations only ever write positions and velocities
(`particle_sim.rs:52-253`, `ball.rs:108-204`). -/
theorem c10_size_mass_immutable :
    (∀ (lib : VecLib) (bounds : Bounds) (store : List BallRec) (b : BallRec),
      b ∈ collider lib bounds store →
      ∃ b0, b0 ∈ store ∧ b0.eid = b.eid ∧ b0.size = b.size ∧ b0.mass = b.mass) ∧
    (∀ (lib : VecLib) (rand2 : Nat → ℚ × ℚ) (bounds : Bounds) (dt : ℚ)
      (fuelA : Nat) (balls : List BallRec) (b : BallRec),
      b ∈ packBalls lib rand2 bounds dt fuelA balls →
      ∃ b0, b0 ∈ balls ∧ b0.eid = b.eid ∧ b0.size = b.size ∧ b0.mass = b.mass) :=
  ⟨fun lib bounds store b hb => coreRel_collider lib bounds store b hb,
    fun lib rand2 bounds dt fuelA balls b hb =>
      coreRel_packBalls lib rand2 bounds dt fuelA balls b hb⟩

/-! ## Phase B: the deletion loop (C1, C6) -/

theorem phaseBStep_cases (b1 b2 : BallRec) (a : List Nat × Bool) :
    phaseBStep b1 b2 a = (a.1 ++ [b2.eid], false) ∨ phaseBStep b1 b2 a = a := by
  unfold phaseBStep
  split
  · exact Or.inl rfl
  · exact Or.inr rfl

theorem phaseBStep_snd_false (b1 b2 : BallRec) (a : List Nat × Bool)
    (h : a.2 = false) : (phaseBStep b1 b2 a).2 = false := by
  unfold phaseBStep
  split
  · rfl
  · exact h

theorem phaseBStep_length_le (b1 b2 : BallRec) (a : List Nat × Bool) :
    a.1.length ≤ (phaseBStep b1 b2 a).1.length := by
  rcases phaseBStep_cases b1 b2 a with h | h <;> rw [h] <;> simp

theorem foldlB_inner_length_le (b1 : BallRec) (l2 : List BallRec)
    (a : List Nat × Bool) :
    a.1.length ≤ (l2.foldl (fun a2 b2 => phaseBStep b1 b2 a2) a).1.length := by
  refine foldl_inv (fun (x : List Nat × Bool) => a.1.length ≤ x.1.length) _ _ _ ?_
    (le_refl _)
  intro y b2 _ hy
  exact le_trans hy (phaseBStep_length_le b1 b2 y)

theorem foldlB_outer_length_le (L : List BallRec) (l1 : List BallRec)
    (a : List Nat × Bool) :
    a.1.length ≤ (l1.foldl
      (fun acc b1 => L.foldl (fun a2 b2 => phaseBStep b1 b2 a2) acc) a).1.length := by
  refine foldl_inv (fun (x : List Nat × Bool) => a.1.length ≤ x.1.length) _ _ _ ?_
    (le_refl _)
  intro x b1 _ hx
  exact le_trans hx (foldlB_inner_length_le b1 L x)

theorem foldlB_inner_fst_append (b1 : BallRec) (l2 : List BallRec)
    (a : List Nat × Bool) :
    ∃ l, (l2.foldl (fun a2 b2 => phaseBStep b1 b2 a2) a).1 = a.1 ++ l := by
  refine foldl_inv (fun (x : List Nat × Bool) => ∃ l, x.1 = a.1 ++ l) _ _ _ ?_
    ⟨[], by simp⟩
  intro y b2 _ hy
  rcases hy with ⟨l, hl⟩
  rcases phaseBStep_cases b1 b2 y with h | h <;> rw [h]
  · exact ⟨l ++ [b2.eid], by rw [hl, List.append_assoc]⟩
  · exact ⟨l, hl⟩

theorem foldlB_outer_fst_append (L : List BallRec) (l1 : List BallRec)
    (a : List Nat × Bool) :
    ∃ l, (l1.foldl
      (fun acc b1 => L.foldl (fun a2 b2 => phaseBStep b1 b2 a2) acc) a).1 =
      a.1 ++ l := by
  refine foldl_inv (fun (x : List Nat × Bool) => ∃ l, x.1 = a.1 ++ l) _ _ _ ?_
    ⟨[], by simp⟩
  intro x b1 _ hx
  rcases hx with ⟨l, hl⟩
  rcases foldlB_inner_fst_append b1 L x with ⟨l2, hl2⟩
  exact ⟨l ++ l2, by rw [hl2, hl, List.append_assoc]⟩

theorem foldlB_inner_eq (b1 : BallRec) (l2 : List BallRec) (a : List Nat × Bool)
    (h : (l2.foldl (fun a2 b2 => phaseBStep b1 b2 a2) a).1.length = a.1.length) :
    l2.foldl (fun a2 b2 => phaseBStep b1 b2 a2) a = a ∧
      ∀ b2 ∈ l2, phaseBStep b1 b2 a = a := by
  induction l2 generalizing a with
  | nil => exact ⟨rfl, by simp⟩
  | cons b2 t ih =>
    rw [List.foldl_cons] at h ⊢
    rcases phaseBStep_cases b1 b2 a with hstep | hstep
    · exfalso
      have h1 : (phaseBStep b1 b2 a).1.length = a.1.length + 1 := by rw [hstep]; simp
      have h2 := foldlB_inner_length_le b1 t (phaseBStep b1 b2 a)
      omega
    · rw [hstep] at h ⊢
      rcases ih a h with ⟨h1, h2⟩
      refine ⟨h1, ?_⟩
      intro x hx
      rcases List.mem_cons.mp hx with rfl | hx
      · exact hstep
      · exact h2 x hx

theorem foldlB_outer_eq (L : List BallRec) (l1 : List BallRec) (a : List Nat × Bool)
    (h : (l1.foldl
      (fun acc b1 => L.foldl (fun a2 b2 => phaseBStep b1 b2 a2) acc) a).1.length =
      a.1.length) :
    l1.foldl (fun acc b1 => L.foldl (fun a2 b2 => phaseBStep b1 b2 a2) acc) a = a ∧
      ∀ b1 ∈ l1, ∀ b2 ∈ L, phaseBStep b1 b2 a = a := by
  induction l1 generalizing a with
  | nil => exact ⟨rfl, by simp⟩
  | cons b1 t ih =>
    rw [List.foldl_cons] at h ⊢
    have hinnerle := foldlB_inner_length_le b1 L a
    have houterle := foldlB_outer_length_le L t
      (L.foldl (fun a2 b2 => phaseBStep b1 b2 a2) a)
    have hinnerlen : (L.foldl (fun a2 b2 => phaseBStep b1 b2 a2) a).1.length =
        a.1.length := by omega
    rcases foldlB_inner_eq b1 L a hinnerlen with ⟨hie, histep⟩
    rw [hie] at h ⊢
    rcases ih a h with ⟨h1, h2⟩
    refine ⟨h1, ?_⟩
    intro x hx
    rcases List.mem_cons.mp hx with rfl | hx
    · exact histep
    · exact h2 x hx

theorem foldlB_inner_snd_false (b1 : BallRec) (l2 : List BallRec)
    (a : List Nat × Bool) (h : a.2 = false) :
    (l2.foldl (fun a2 b2 => phaseBStep b1 b2 a2) a).2 = false :=
  foldl_inv (fun (x : List Nat × Bool) => x.2 = false) _ _ _
    (fun y b2 _ hy => phaseBStep_snd_false b1 b2 y hy) h

theorem foldlB_outer_snd_false (L : List BallRec) (l1 : List BallRec)
    (a : List Nat × Bool) (h : a.2 = false) :
    (l1.foldl
      (fun acc b1 => L.foldl (fun a2 b2 => phaseBStep b1 b2 a2) acc) a).2 =
      false :=
  foldl_inv (fun (x : List Nat × Bool) => x.2 = false) _ _ _
    (fun x b1 _ hx => foldlB_inner_snd_false b1 L x hx) h

theorem foldlB_inner_snd_true (b1 : BallRec) (l2 : List BallRec)
    (a : List Nat × Bool)
    (h : (l2.foldl (fun a2 b2 => phaseBStep b1 b2 a2) a).2 = true) :
    (l2.foldl (fun a2 b2 => phaseBStep b1 b2 a2) a).1.length = a.1.length := by
  induction l2 generalizing a with
  | nil => rfl
  | cons b2 t ih =>
    rw [List.foldl_cons] at h ⊢
    rcases phaseBStep_cases b1 b2 a with hstep | hstep
    · exfalso
      have hfalse := foldlB_inner_snd_false b1 t (phaseBStep b1 b2 a)
        (by rw [hstep])
      rw [hfalse] at h
      exact Bool.false_ne_true h
    · rw [hstep] at h ⊢
      exact ih a h

theorem foldlB_outer_snd_true (L : List BallRec) (l1 : List BallRec)
    (a : List Nat × Bool)
    (h : (l1.foldl
      (fun acc b1 => L.foldl (fun a2 b2 => phaseBStep b1 b2 a2) acc) a).2 = true) :
    (l1.foldl
      (fun acc b1 => L.foldl (fun a2 b2 => phaseBStep b1 b2 a2) acc) a).1.length =
      a.1.length := by
  induction l1 generalizing a with
  | nil => rfl
  | cons b1 t ih =>
    rw [List.foldl_cons] at h ⊢
    by_cases hflag : (L.foldl (fun a2 b2 => phaseBStep b1 b2 a2) a).2 = true
    · have hlen := foldlB_inner_snd_true b1 L a hflag
      have := ih (L.foldl (fun a2 b2 => phaseBStep b1 b2 a2) a) h
      omega
    · exfalso
      have hfalse := foldlB_outer_snd_false L t
        (L.foldl (fun a2 b2 => phaseBStep b1 b2 a2) a)
        (Bool.not_eq_true _ ▸ hflag)
      rw [hfalse] at h
      exact Bool.false_ne_true h

/-- A pass whose `spaced` flag survives as `true` changed nothing, and
every pair's step is a no-op at the pass's own start state. -/
theorem phaseBPass_fix_of_snd_true (balls : List BallRec) (c : List Nat)
    (h : (phaseBPass balls (c, true)).2 = true) :
    phaseBPass balls (c, true) = (c, true) ∧
      ∀ b1 ∈ balls, ∀ b2 ∈ balls, phaseBStep b1 b2 (c, true) = (c, true) := by
  have hlen := foldlB_outer_snd_true balls balls (c, true) h
  exact foldlB_outer_eq balls balls (c, true) hlen

/-- At a Phase B fixpoint, every overlapping pair of distinct balls has
a cleared member. -/
theorem phaseBDone_pairs (balls : List BallRec) (c : List Nat)
    (h : phaseBDone balls c) :
    ∀ b1 ∈ balls, ∀ b2 ∈ balls, ballsOverlap b1 b2 = true → b1.eid ≠ b2.eid →
      b1.eid ∈ c ∨ b2.eid ∈ c := by
  intro b1 hb1 b2 hb2 hov hne
  rcases phaseBPass_fix_of_snd_true balls c h with ⟨_, hsteps⟩
  have hstep := hsteps b1 hb1 b2 hb2
  by_contra hcon
  push_neg at hcon
  have hguard : phaseBStep b1 b2 ((c, true) : List Nat × Bool) =
      (c ++ [b2.eid], false) := by
    unfold phaseBStep
    rw [if_pos]
    simp only [Bool.and_eq_true, decide_eq_true_eq, Bool.not_eq_true',
      List.contains, List.elem_eq_mem, decide_eq_false_iff_not]
    exact ⟨⟨⟨hov, hne⟩, hcon.1⟩, hcon.2⟩
  rw [hguard] at hstep
  have := congrArg Prod.snd hstep
  simp at this

/-- Case analysis on one Phase B step with the full guard information. -/
theorem phaseBStep_invariants (b1 b2 : BallRec) (a : List Nat × Bool) :
    (phaseBStep b1 b2 a = a ∧
      (ballsOverlap b1 b2 = false ∨ b1.eid = b2.eid ∨ b1.eid ∈ a.1 ∨
        b2.eid ∈ a.1)) ∨
    (ballsOverlap b1 b2 = true ∧ b1.eid ≠ b2.eid ∧ b1.eid ∉ a.1 ∧ b2.eid ∉ a.1 ∧
      phaseBStep b1 b2 a = (a.1 ++ [b2.eid], false)) := by
  unfold phaseBStep
  split
  case isTrue hcond =>
    simp only [Bool.and_eq_true, decide_eq_true_eq, Bool.not_eq_true',
      List.contains, List.elem_eq_mem, decide_eq_false_iff_not] at hcond
    exact Or.inr ⟨hcond.1.1.1, hcond.1.1.2, hcond.1.2, hcond.2, rfl⟩
  case isFalse hcond =>
    refine Or.inl ⟨rfl, ?_⟩
    by_cases hov : ballsOverlap b1 b2 = true
    · by_cases hne : b1.eid = b2.eid
      · exact Or.inr (Or.inl hne)
      · by_cases hm1 : b1.eid ∈ a.1
        · exact Or.inr (Or.inr (Or.inl hm1))
        · by_cases hm2 : b2.eid ∈ a.1
          · exact Or.inr (Or.inr (Or.inr hm2))
          · exfalso
            apply hcond
            simp only [Bool.and_eq_true, decide_eq_true_eq, Bool.not_eq_true',
              List.contains, List.elem_eq_mem, decide_eq_false_iff_not]
            exact ⟨⟨⟨hov, hne⟩, hm1⟩, hm2⟩
    · exact Or.inl (by rwa [Bool.not_eq_true] at hov)

theorem phaseBPass_nodup (balls : List BallRec) (acc : List Nat × Bool)
    (h : acc.1.Nodup) : (phaseBPass balls acc).1.Nodup := by
  refine foldl_inv (fun (x : List Nat × Bool) => x.1.Nodup) _ _ _ ?_ h
  intro x b1 _ hx
  refine foldl_inv (fun (x : List Nat × Bool) => x.1.Nodup) _ _ _ ?_ hx
  intro y b2 _ hy
  rcases phaseBStep_invariants b1 b2 y with ⟨he, _⟩ | ⟨_, _, _, hb2, he⟩ <;> rw [he]
  · exact hy
  · simp only [List.nodup_append, List.nodup_singleton, true_and]
    exact ⟨hy, by simpa [List.disjoint_singleton] using hb2⟩

theorem phaseBPass_subset (balls : List BallRec) (acc : List Nat × Bool)
    (h : ∀ e ∈ acc.1, e ∈ balls.map BallRec.eid) :
    ∀ e ∈ (phaseBPass balls acc).1, e ∈ balls.map BallRec.eid := by
  refine foldl_inv
    (fun (x : List Nat × Bool) => ∀ e ∈ x.1, e ∈ balls.map BallRec.eid) _ _ _ ?_ h
  intro x b1 _ hx
  refine foldl_inv
    (fun (x : List Nat × Bool) => ∀ e ∈ x.1, e ∈ balls.map BallRec.eid) _ _ _ ?_ hx
  intro y b2 hb2 hy
  rcases phaseBStep_invariants b1 b2 y with ⟨he, _⟩ | ⟨_, _, _, _, he⟩ <;> rw [he]
  · exact hy
  · intro e he2
    rcases List.mem_append.mp he2 with hl | hr
    · exact hy e hl
    · rw [List.mem_singleton] at hr
      subst hr
      exact List.mem_map.mpr ⟨b2, hb2, rfl⟩

theorem phaseBPass_survivor (balls : List BallRec) (acc : List Nat × Bool)
    (h : ∃ b ∈ balls, b.eid ∉ acc.1) :
    ∃ b ∈ balls, b.eid ∉ (phaseBPass balls acc).1 := by
  refine foldl_inv
    (fun (x : List Nat × Bool) => ∃ b ∈ balls, b.eid ∉ x.1) _ _ _ ?_ h
  intro x b1 hb1 hx
  refine foldl_inv
    (fun (x : List Nat × Bool) => ∃ b ∈ balls, b.eid ∉ x.1) _ _ _ ?_ hx
  intro y b2 _ hy
  rcases phaseBStep_invariants b1 b2 y with ⟨he, _⟩ | ⟨_, hne, hb1e, _, he⟩ <;> rw [he]
  · exact hy
  · exact ⟨b1, hb1, by simp [List.mem_append, hb1e, hne]⟩

theorem foldlB_inner_mem_mono (b1 : BallRec) (l2 : List BallRec)
    (a : List Nat × Bool) (e : Nat) (h : e ∈ a.1) :
    e ∈ (l2.foldl (fun a2 b2 => phaseBStep b1 b2 a2) a).1 := by
  rcases foldlB_inner_fst_append b1 l2 a with ⟨l, hl⟩
  rw [hl]
  exact List.mem_append_left _ h

theorem foldlB_outer_mem_mono (L : List BallRec) (l1 : List BallRec)
    (a : List Nat × Bool) (e : Nat) (h : e ∈ a.1) :
    e ∈ (l1.foldl
      (fun acc b1 => L.foldl (fun a2 b2 => phaseBStep b1 b2 a2) acc) a).1 := by
  rcases foldlB_outer_fst_append L l1 a with ⟨l, hl⟩
  rw [hl]
  exact List.mem_append_left _ h

theorem foldlB_inner_marks (b1 b2 : BallRec) (hov : ballsOverlap b1 b2 = true)
    (hne : b1.eid ≠ b2.eid) :
    ∀ (l2 : List BallRec) (a : List Nat × Bool), b2 ∈ l2 →
      b1.eid ∈ (l2.foldl (fun a2 x => phaseBStep b1 x a2) a).1 ∨
        b2.eid ∈ (l2.foldl (fun a2 x => phaseBStep b1 x a2) a).1 := by
  intro l2
  induction l2 with
  | nil => intro a h; cases h
  | cons x t ih =>
    intro a hb2
    rw [List.foldl_cons]
    rcases List.mem_cons.mp hb2 with rfl | hmem
    · rcases phaseBStep_invariants b1 b2 a with ⟨he, hreason⟩ | ⟨_, _, _, _, he⟩
      · rcases hreason with hov2 | hne2 | hm1 | hm2
        · rw [hov] at hov2; cases hov2
        · exact absurd hne2 hne
        · exact Or.inl (foldlB_inner_mem_mono b1 t _ _ (by rw [he]; exact hm1))
        · exact Or.inr (foldlB_inner_mem_mono b1 t _ _ (by rw [he]; exact hm2))
      · refine Or.inr (foldlB_inner_mem_mono b1 t _ _ ?_)
        rw [he]
        simp
    · exact ih (phaseBStep b1 x a) hmem

theorem phaseBPass_marks (balls : List BallRec) (b1 b2 : BallRec)
    (hb1 : b1 ∈ balls) (hb2 : b2 ∈ balls) (hov : ballsOverlap b1 b2 = true)
    (hne : b1.eid ≠ b2.eid) (acc : List Nat × Bool) :
    b1.eid ∈ (phaseBPass balls acc).1 ∨ b2.eid ∈ (phaseBPass balls acc).1 := by
  have main : ∀ (l1 : List BallRec) (a : List Nat × Bool), b1 ∈ l1 →
      b1.eid ∈ (l1.foldl
        (fun acc2 x => balls.foldl (fun a2 y => phaseBStep x y a2) acc2) a).1 ∨
      b2.eid ∈ (l1.foldl
        (fun acc2 x => balls.foldl (fun a2 y => phaseBStep x y a2) acc2) a).1 := by
    intro l1
    induction l1 with
    | nil => intro a h; cases h
    | cons x t ih =>
      intro a hmem1
      rw [List.foldl_cons]
      rcases List.mem_cons.mp hmem1 with rfl | hmem
      · rcases foldlB_inner_marks b1 b2 hov hne balls a hb2 with h | h
        · exact Or.inl (foldlB_outer_mem_mono balls t _ _ h)
        · exact Or.inr (foldlB_outer_mem_mono balls t _ _ h)
      · exact ih _ hmem
  exact main balls acc hb1

/-- Generic invariant preservation along the Phase B loop. -/
theorem phaseBLoop_inv (balls : List BallRec) (P : List Nat → Prop)
    (hP : ∀ c, P c → P (phaseBPass balls (c, true)).1) :
    ∀ (fuel : Nat) (c : List Nat), P c → P (phaseBLoop balls fuel c) := by
  intro fuel
  induction fuel with
  | zero => intro c h; exact h
  | succ n ih =>
    intro c h
    rw [phaseBLoop]
    by_cases hflag : (phaseBPass balls (c, true)).2 = true
    · rw [if_pos hflag]
      exact hP c h
    · rw [if_neg hflag]
      exact ih _ (hP c h)

/-- Termination of the Phase B loop: `length + 1` units of fuel always
reach the loop's own exit condition (a pass that clears nothing), since
every continuing pass strictly grows the duplicate-free `cleared` list,
which is bounded by the number of distinct ids. -/
theorem phaseBLoop_done (balls : List BallRec) :
    ∀ (fuel : Nat) (c : List Nat), c.Nodup →
      (∀ e ∈ c, e ∈ balls.map BallRec.eid) →
      (balls.map BallRec.eid).dedup.length - c.length + 1 ≤ fuel →
      phaseBDone balls (phaseBLoop balls fuel c) := by
  intro fuel
  induction fuel with
  | zero => intro c _ _ h; omega
  | succ n ih =>
    intro c hnd hsub hfuel
    rw [phaseBLoop]
    by_cases hflag : (phaseBPass balls (c, true)).2 = true
    · rw [if_pos hflag]
      rcases phaseBPass_fix_of_snd_true balls c hflag with ⟨heq, _⟩
      rw [heq]
      exact hflag
    · rw [if_neg hflag]
      have hge : c.length ≤ (phaseBPass balls (c, true)).1.length :=
        foldlB_outer_length_le balls balls (c, true)
      have hne2 : (phaseBPass balls (c, true)).1.length ≠ c.length := by
        intro heq
        have hfix : phaseBPass balls (c, true) = ((c, true) : List Nat × Bool) :=
          (foldlB_outer_eq balls balls (c, true) heq).1
        rw [hfix] at hflag
        exact hflag rfl
      have hnd2 : (phaseBPass balls (c, true)).1.Nodup := phaseBPass_nodup _ _ hnd
      have hsub2 := phaseBPass_subset balls (c, true) hsub
      have hlen_le : (phaseBPass balls (c, true)).1.length ≤
          (balls.map BallRec.eid).dedup.length := by
        have hs : (phaseBPass balls (c, true)).1 ⊆ (balls.map BallRec.eid).dedup :=
          fun e he => List.mem_dedup.mpr (hsub2 e he)
        exact (List.subperm_of_subset hnd2 hs).length_le
      exact ih _ hnd2 hsub2 (by omega)

/-- A duplicate-free cleared list drawn from the ball ids that misses at
least one ball is strictly shorter than the ball list. -/
theorem cleared_length_lt (balls : List BallRec) (c : List Nat) (hnd : c.Nodup)
    (hsub : ∀ e ∈ c, e ∈ balls.map BallRec.eid)
    (hsurv : ∃ b ∈ balls, b.eid ∉ c) :
    c.length < balls.length := by
  rcases hsurv with ⟨b, hb, hbe⟩
  have hnd2 : (b.eid :: c).Nodup := List.nodup_cons.mpr ⟨hbe, hnd⟩
  have hsub2 : (b.eid :: c) ⊆ balls.map BallRec.eid := by
    intro e he
    rcases List.mem_cons.mp he with rfl | he2
    · exact List.mem_map.mpr ⟨b, hb, rfl⟩
    · exact hsub e he2
  have hle := (List.subperm_of_subset hnd2 hsub2).length_le
  simp only [List.length_cons, List.length_map] at hle
  omega

/-- C6: Phase B of `pack_balls` always terminates: with `n + 1` full
passes available (`n` the number of balls) the loop reaches its own exit
condition, a pass that finds no contact among non-cleared balls; it
deletes at most `n - 1` balls (some ball always survives); and every
single pass marks at least one member of every remaining overlapping
pair of distinct non-cleared balls (`ball.rs:176-202`). -/
theorem c6_phase_b_terminates (balls : List BallRec) :
    phaseBDone balls (phaseBLoop balls (balls.length + 1) []) ∧
    (balls ≠ [] → (phaseBLoop balls (balls.length + 1) []).length < balls.length) ∧
    (∀ (cleared : List Nat) (b1 : BallRec), b1 ∈ balls → ∀ b2 ∈ balls,
      ballsOverlap b1 b2 = true → b1.eid ≠ b2.eid →
      b1.eid ∈ (phaseBPass balls (cleared, true)).1 ∨
        b2.eid ∈ (phaseBPass balls (cleared, true)).1) := by
  refine ⟨?_, ?_, ?_⟩
  · refine phaseBLoop_done balls (balls.length + 1) [] List.nodup_nil (by simp) ?_
    have hd : (balls.map BallRec.eid).dedup.length ≤ balls.length := by
      have h1 := (List.dedup_sublist (balls.map BallRec.eid)).length_le
      simpa [List.length_map] using h1
    omega
  · intro hne
    rcases List.exists_mem_of_ne_nil balls hne with ⟨b0, hb0⟩
    have hinv := phaseBLoop_inv balls
      (fun c => c.Nodup ∧ (∀ e ∈ c, e ∈ balls.map BallRec.eid) ∧
        ∃ b ∈ balls, b.eid ∉ c)
      (fun c hc => ⟨phaseBPass_nodup _ _ hc.1, phaseBPass_subset _ _ hc.2.1,
        phaseBPass_survivor _ _ hc.2.2⟩)
      (balls.length + 1) []
      ⟨List.nodup_nil, by simp, ⟨b0, hb0, by simp⟩⟩
    exact cleared_length_lt balls _ hinv.1 hinv.2.1 hinv.2.2
  · intro cleared b1 hb1 b2 hb2 hov hne
    exact phaseBPass_marks balls b1 b2 hb1 hb2 hov hne (cleared, true)

/-- C6 (witness): two overlapping balls of radius 10 at `(0,0,0)` and
`(5,0,0)`: Phase B terminates and deletes fewer than two balls. -/
theorem c6_phase_b_terminates_witness :
    (phaseBLoop packSt0.balls (packSt0.balls.length + 1) []).length <
      packSt0.balls.length :=
  (c6_phase_b_terminates packSt0.balls).2.1 (by simp [packSt0])

/-- C1: after `pack_balls` completes (Phase A then Phase B with the
deferred despawns applied), every unordered pair of distinct surviving
balls satisfies `distanceSquared(pos_i, pos_j) ≥ (r_i + r_j)²`: the
final deletion loop only stops once a full scan over non-cleared balls
finds no contacting pair (`ball.rs:176-202`). -/
theorem c1_pack_no_residual_overlap (lib : VecLib) (rand2 : Nat → ℚ × ℚ)
    (bounds : Bounds) (dt : ℚ) (fuelA : Nat) (balls : List BallRec)
    (b1 b2 : BallRec) (h1 : b1 ∈ packBalls lib rand2 bounds dt fuelA balls)
    (h2 : b2 ∈ packBalls lib rand2 bounds dt fuelA balls)
    (hne : b1.eid ≠ b2.eid) :
    (((b1.size + b2.size) ^ 2 : ℕ) : ℚ) ≤ V3.distanceSquared b1.pos b2.pos := by
  simp only [packBalls] at h1 h2
  rcases List.mem_filter.mp h1 with ⟨hm1, hc1⟩
  rcases List.mem_filter.mp h2 with ⟨hm2, hc2⟩
  simp only [Bool.not_eq_true', List.contains, List.elem_eq_mem,
    decide_eq_false_iff_not] at hc1 hc2
  have hDone := phaseBLoop_done
    (phaseALoop lib rand2 bounds dt fuelA ⟨balls, [], 0, false, 0⟩).balls
    ((phaseALoop lib rand2 bounds dt fuelA ⟨balls, [], 0, false, 0⟩).balls.length + 1)
    [] List.nodup_nil (by simp) ?hfuel
  case hfuel =>
    have hd := (List.dedup_sublist
      ((phaseALoop lib rand2 bounds dt fuelA
        ⟨balls, [], 0, false, 0⟩).balls.map BallRec.eid)).length_le
    simp only [List.length_map] at hd
    omega
  have hpairs := phaseBDone_pairs _ _ hDone b1 hm1 b2 hm2
  by_contra hlt
  rw [not_le] at hlt
  have hov : ballsOverlap b1 b2 = true := by
    simp only [ballsOverlap, decide_eq_true_eq]
    exact hlt
  rcases hpairs hov hne with hmem | hmem
  · exact hc1 hmem
  · exact hc2 hmem

/-- C1 (witness): packing two already-separated balls (radius 10 at
`(0,0,0)` and `(100,0,0)`) keeps both, and the pair satisfies the
separation bound. -/
theorem c1_pack_no_residual_overlap_witness :
    ((((10 + 10) ^ 2 : ℕ) : ℚ)) ≤ V3.distanceSquared ⟨0, 0, 0⟩ ⟨100, 0, 0⟩ :=
  c1_pack_no_residual_overlap libDummy randDummy bounds0 (1/100) 0
    [⟨0, ⟨0, 0, 0⟩, ⟨0, 0⟩, 10, 5⟩, ⟨1, ⟨100, 0, 0⟩, ⟨0, 0⟩, 10, 5⟩]
    ⟨0, ⟨0, 0, 0⟩, ⟨0, 0⟩, 10, 5⟩ ⟨1, ⟨100, 0, 0⟩, ⟨0, 0⟩, 10, 5⟩
    (by norm_num [packBalls, phaseALoop, phaseBLoop, phaseBPass, phaseBStep,
      ballsOverlap, V3.distanceSquared, V3.lengthSquared, V3.sub,
      List.foldl_cons, List.foldl_nil])
    (by norm_num [packBalls, phaseALoop, phaseBLoop, phaseBPass, phaseBStep,
      ballsOverlap, V3.distanceSquared, V3.lengthSquared, V3.sub,
      List.foldl_cons, List.foldl_nil])
    (by norm_num)

/-! ## C3: deduplication of symmetric pair reports -/

theorem dedupByGo_subset (sb : Nat × CollisionType → Nat × CollisionType → Bool) :
    ∀ (l : List (Nat × CollisionType)) (last c : Nat × CollisionType),
      c ∈ dedupByGo sb last l → c ∈ l := by
  intro l
  induction l with
  | nil => intro last c h; cases h
  | cons y ys ih =>
    intro last c h
    rw [dedupByGo] at h
    split at h
    · exact List.mem_cons_of_mem _ (ih last c h)
    · rcases List.mem_cons.mp h with rfl | h2
      · exact List.mem_cons_self _ _
      · exact List.mem_cons_of_mem _ (ih y c h2)

theorem pairCount_zero (A B : Nat) (l : List (Nat × CollisionType))
    (h : ∀ c ∈ l, refsPair A B c = false) : pairCount A B l = 0 := by
  simp only [pairCount, List.length_eq_zero]
  rw [List.filter_eq_nil]
  intro c hc
  simp [h c hc]

theorem pairCount_go_zero (A B : Nat)
    (sb : Nat × CollisionType → Nat × CollisionType → Bool)
    (last : Nat × CollisionType) (l : List (Nat × CollisionType))
    (h : ∀ c ∈ l, refsPair A B c = false) :
    pairCount A B (dedupByGo sb last l) = 0 :=
  pairCount_zero A B _ fun c hc => h c (dedupByGo_subset sb l last c hc)

theorem pairCount_cons (A B : Nat) (c : Nat × CollisionType)
    (l : List (Nat × CollisionType)) :
    pairCount A B (c :: l) =
      (if refsPair A B c = true then 1 else 0) + pairCount A B l := by
  simp only [pairCount, List.filter_cons]
  split
  · simp [Nat.add_comm]
  · simp

/-- The later of two adjacent symmetric pair reports matches the dedup
predicate against the earlier one (clause 2 of `sameBucket`). -/
theorem sameBucket_swap_pair (A B : Nat) :
    sameBucket (B, CollisionType.Entity A) (A, CollisionType.Entity B) = true := by
  simp [sameBucket, ctTarget]

/-- No single retained element that neither references the pair `{A,B}`
nor is a self-referential `(A, Entity A)` / `(B, Entity B)` record can
absorb both symmetric reports of the pair. -/
theorem sameBucket_not_both (A B : Nat) (hAB : A ≠ B) (p : Nat × CollisionType)
    (hP1 : refsPair A B p = false) (hP2 : p ≠ (A, CollisionType.Entity A))
    (hP3 : p ≠ (B, CollisionType.Entity B))
    (h1 : sameBucket (A, CollisionType.Entity B) p = true)
    (h2 : sameBucket (B, CollisionType.Entity A) p = true) : False := by
  rcases p with ⟨p1, pk⟩
  cases pk with
  | Wall w =>
    simp [sameBucket, ctTarget, refsPair] at h1 h2
    omega
  | Entity e =>
    simp [sameBucket, ctTarget, refsPair, Prod.mk.injEq] at h1 h2 hP1 hP2 hP3
    omega

theorem dedupByGo_pair_once (A B : Nat) (hAB : A ≠ B)
    (l2 : List (Nat × CollisionType)) (hl2 : ∀ c ∈ l2, refsPair A B c = false) :
    ∀ (l1 : List (Nat × CollisionType)),
      (∀ c ∈ l1, refsPair A B c = false ∧ c ≠ (A, CollisionType.Entity A) ∧
        c ≠ (B, CollisionType.Entity B)) →
      ∀ (last : Nat × CollisionType),
        refsPair A B last = false → last ≠ (A, CollisionType.Entity A) →
        last ≠ (B, CollisionType.Entity B) →
        pairCount A B (dedupByGo sameBucket last
          (l1 ++ (A, CollisionType.Entity B) ::
            (B, CollisionType.Entity A) :: l2)) = 1 := by
  intro l1
  induction l1 with
  | nil =>
    intro _ last hP1 hP2 hP3
    rw [List.nil_append, dedupByGo]
    by_cases h1 : sameBucket (A, CollisionType.Entity B) last = true
    · rw [if_pos h1, dedupByGo]
      by_cases h2 : sameBucket (B, CollisionType.Entity A) last = true
      · exact (sameBucket_not_both A B hAB last hP1 hP2 hP3 h1 h2).elim
      · rw [if_neg h2, pairCount_cons, if_pos (by simp [refsPair]),
          pairCount_go_zero A B _ _ l2 hl2]
    · rw [if_neg h1, pairCount_cons, if_pos (by simp [refsPair]), dedupByGo,
        if_pos (sameBucket_swap_pair A B), pairCount_go_zero A B _ _ l2 hl2]
  | cons p t ih =>
    intro hl1 last hP1 hP2 hP3
    rw [List.cons_append, dedupByGo]
    have hp := hl1 p (List.mem_cons_self _ _)
    by_cases h1 : sameBucket p last = true
    · rw [if_pos h1]
      exact ih (fun c hc => hl1 c (List.mem_cons_of_mem _ hc)) last hP1 hP2 hP3
    · rw [if_neg h1, pairCount_cons, if_neg (by simp [hp.1])]
      rw [ih (fun c hc => hl1 c (List.mem_cons_of_mem _ hc)) p hp.1 hp.2.1 hp.2.2]

/-- C3 (counterexample): Rust `Vec::dedup_by` only compares consecutive
entries, so when the detection pass reports `(0, OtherBall 1)` and
`(1, OtherBall 0)` separated by an unrelated wall entry, both symmetric
reports survive deduplication and two ball-ball resolutions are applied
to the same physical pair — not exactly one as claimed. -/
theorem c3_counterexample :
    pairCount 0 1 (dedupBy sameBucket
      [(0, CollisionType.Entity 1), (2, CollisionType.Wall Wall.North),
        (1, CollisionType.Entity 0)]) = 2 := by
  decide

/-- C3 (amended): when the two symmetric reports `(A, OtherBall B)` and
`(B, OtherBall A)` are adjacent in the raw contact list, and no other
entry of the list references the pair `{A, B}` (and no entry is a
degenerate self-report `(A, OtherBall A)` or `(B, OtherBall B)`, which
detection cannot produce), exactly one ball-ball resolution is applied
to the pair after deduplication. -/
theorem c3_amended_adjacent_dedup (A B : Nat) (hAB : A ≠ B)
    (l1 l2 : List (Nat × CollisionType))
    (hl1 : ∀ c ∈ l1, refsPair A B c = false ∧ c ≠ (A, CollisionType.Entity A) ∧
      c ≠ (B, CollisionType.Entity B))
    (hl2 : ∀ c ∈ l2, refsPair A B c = false) :
    pairCount A B (dedupBy sameBucket
      (l1 ++ (A, CollisionType.Entity B) ::
        (B, CollisionType.Entity A) :: l2)) = 1 := by
  cases l1 with
  | nil =>
    rw [List.nil_append, dedupBy, pairCount_cons, if_pos (by simp [refsPair]),
      dedupByGo, if_pos (sameBucket_swap_pair A B),
      pairCount_go_zero A B _ _ l2 hl2]
  | cons p t =>
    rw [List.cons_append, dedupBy, pairCount_cons]
    have hp := hl1 p (List.mem_cons_self _ _)
    rw [if_neg (by simp [hp.1])]
    rw [dedupByGo_pair_once A B hAB l2 hl2 t
      (fun c hc => hl1 c (List.mem_cons_of_mem _ hc)) p hp.1 hp.2.1 hp.2.2]

/-- C3 (witness for the amended theorem): the symmetric reports adjacent
after one unrelated wall entry dedup to a single resolution. -/
theorem c3_amended_witness :
    pairCount 0 1 (dedupBy sameBucket
      [(2, CollisionType.Wall Wall.North), (0, CollisionType.Entity 1),
        (1, CollisionType.Entity 0)]) = 1 :=
  c3_amended_adjacent_dedup 0 1 (by decide)
    [(2, CollisionType.Wall Wall.North)] [] (by decide) (by decide)

/-- C10 (witness): a single centred ball passes through one `collider`
tick and one `pack_balls` run with its radius and mass intact. -/
theorem c10_size_mass_immutable_witness :
    (∃ b0, b0 ∈ [(⟨0, ⟨50, 50, 1⟩, ⟨0, 0⟩, 10, 5⟩ : BallRec)] ∧
      b0.eid = (⟨0, ⟨50, 50, 1⟩, ⟨0, 0⟩, 10, 5⟩ : BallRec).eid ∧
      b0.size = (⟨0, ⟨50, 50, 1⟩, ⟨0, 0⟩, 10, 5⟩ : BallRec).size ∧
      b0.mass = (⟨0, ⟨50, 50, 1⟩, ⟨0, 0⟩, 10, 5⟩ : BallRec).mass) ∧
    (∃ b0, b0 ∈ [(⟨0, ⟨50, 50, 1⟩, ⟨0, 0⟩, 10, 5⟩ : BallRec)] ∧
      b0.eid = (⟨0, ⟨50, 50, 1⟩, ⟨0, 0⟩, 10, 5⟩ : BallRec).eid ∧
      b0.size = (⟨0, ⟨50, 50, 1⟩, ⟨0, 0⟩, 10, 5⟩ : BallRec).size ∧
      b0.mass = (⟨0, ⟨50, 50, 1⟩, ⟨0, 0⟩, 10, 5⟩ : BallRec).mass) := by
  constructor
  · exact c10_size_mass_immutable.1 libDummy bounds0
      [⟨0, ⟨50, 50, 1⟩, ⟨0, 0⟩, 10, 5⟩] ⟨0, ⟨50, 50, 1⟩, ⟨0, 0⟩, 10, 5⟩
      (by norm_num [collider, detectContacts, detectPair, ballsOverlap,
        wallContact, dedupBy, applyContact, integrateBall, bounds0,
        V3.distanceSquared, V3.lengthSquared, V3.sub, V3.add, V3.clamp3,
        V2.extend, V2.add, V2.sub, V2.splat, qclamp])
  · exact c10_size_mass_immutable.2 libDummy randDummy bounds0 (1/100) 0
      [⟨0, ⟨50, 50, 1⟩, ⟨0, 0⟩, 10, 5⟩] ⟨0, ⟨50, 50, 1⟩, ⟨0, 0⟩, 10, 5⟩
      (by norm_num [packBalls, phaseALoop, phaseBLoop, phaseBPass, phaseBStep,
        ballsOverlap, V3.distanceSquared, V3.lengthSquared, V3.sub])

end BallSim
